import Mathlib

/-!
Verification development for the recommendation pipeline of this repository
(services `rag_svc`, `pipeline_svc`, `xsell_svc`, `embedding_svc`, `retrieval`,
repositories `product_search_repo`, `reco_product_cache_repo`, `vector_cache_repo`,
and `utils/locks`).

Modelling conventions of the shallow embedding:
* Python floats are modelled as `ℚ` (the embedded code performs only field
  arithmetic and comparisons on scores).
* Fallible external capabilities (document store aggregations, the cache store,
  the embedding/completion provider) are passed in as explicit oracle values or
  functions; an `Outcome α` is `ok` data or an `err` message (a raised
  exception).  Python functions that may raise are embedded as `Except String`.
* Python dicts used as JSON payloads are embedded as structures/inductives; a
  dict key that the source sometimes omits entirely is an `Option` field
  (`none` = key absent), so "present but empty list" (`some []`) and "absent"
  (`none`) are distinguishable, exactly the distinction the retrieval adapter
  spec cares about.
* Cache serialisation (`json.dumps`/`model_validate` round trips) is modelled
  as the identity; the Python truthiness test `if raw:` on a serialised list is
  always true (the JSON text of a list is a nonempty string, `"[]"` included),
  which is why the cache-repo `get` below returns `some []` for a stored empty
  list.
-/

/-- Result of calling a fallible external capability: either a value or a
raised exception carrying a message. -/
inductive Outcome (α : Type) where
  | ok (a : α)
  | err (msg : String)
deriving DecidableEq, Repr

/-- Decidable equality for `Except` results (used to evaluate concrete runs). -/
instance {e a : Type} [DecidableEq e] [DecidableEq a] : DecidableEq (Except e a) := fun x y =>
  match x, y with
  | .ok v, .ok w =>
    if h : v = w then .isTrue (congrArg Except.ok h)
    else .isFalse (fun hh => h (Except.ok.inj hh))
  | .error v, .error w =>
    if h : v = w then .isTrue (congrArg Except.error h)
    else .isFalse (fun hh => h (Except.error.inj hh))
  | .ok _, .error _ => .isFalse (fun hh => Except.noConfusion hh)
  | .error _, .ok _ => .isFalse (fun hh => Except.noConfusion hh)

/-- First-occurrence-wins deduplication by a key function, mirroring the
`seen`-set loops in the source (`_parse_and_validate`, `dict.fromkeys`,
Mongo `$addToSet`/`distinct` modelled with deterministic first-seen order). -/
def dedupFirstBy {α β : Type} [DecidableEq β] (key : α → β) : List β → List α → List α
  | _, [] => []
  | seen, a :: l =>
    if key a ∈ seen then dedupFirstBy key seen l
    else a :: dedupFirstBy key (key a :: seen) l

/-- First-occurrence-wins deduplication of a list. -/
def dedupFirst {α : Type} [DecidableEq α] (l : List α) : List α :=
  dedupFirstBy id [] l

/-- Insert `x` into a list that is sorted by non-increasing `f`-value, before
the first element whose `f`-value is `≤ f x` (so among equal keys, `x`, which
comes earlier in the original list, stays first: stability of Python sorts). -/
def insertDescBy {α : Type} (f : α → ℚ) (x : α) : List α → List α
  | [] => [x]
  | y :: ys => if f y ≤ f x then x :: y :: ys else y :: insertDescBy f x ys

/-- Stable sort by non-increasing `f`-value.  This is extensionally the Python
`list.sort(key=f, reverse=True)` / Mongo `$sort: {field: -1}`: a stable sort is
uniquely determined by sortedness and stability. -/
def sortDescBy {α : Type} (f : α → ℚ) (l : List α) : List α :=
  l.foldr (insertDescBy f) []

/-- Membership of `needle` as a contiguous sublist of `haystack`; used to embed
Python's substring test `a in b` on strings. -/
def listContainsInfix {α : Type} [DecidableEq α] (needle haystack : List α) : Bool :=
  (List.range (haystack.length + 1)).any
    (fun i => (haystack.drop i).take needle.length = needle)

/-- Python's `a in b` for strings: substring containment. -/
def pyStrIn (needle haystack : String) : Bool :=
  listContainsInfix needle.toList haystack.toList

/-- Python's `dict(pairs).get k`: the value of the LAST pair with key `k`
(later entries overwrite earlier ones when a dict is built from a sequence). -/
def lookupLast {α : Type} (l : List (String × α)) (k : String) : Option α :=
  (l.reverse.find? (fun p => p.1 = k)).map (·.2)

-- ===========================================================================
-- app/domain/services/constants.py
-- ===========================================================================

/-- `RETRIEVAL_K = 30`: number of candidates retrieved for reranking. -/
def RETRIEVAL_K : Nat := 30

/-- `FINAL_K = 10`: final number of recommendations after reranking. -/
def FINAL_K : Nat := 10

/-- `RERANK_ALPHA = 0.75`: blend weight of the LLM score vs retrieval score. -/
def RERANK_ALPHA : ℚ := 3 / 4

def MIN_SCORE_RETRIEVAL_SIM : ℚ := 1 / 2
def MIN_SCORE_RETRIEVAL_COMP : ℚ := 1 / 2
def MIN_SCORE_RETRIEVAL_XSELL : ℚ := 0
def MIN_SCORE_RETRIEVAL_UPSELL : ℚ := 0

def KIND_SIMILAR : String := "sim"
def KIND_SIMILAR_RICH : String := "sim_rich"
def KIND_COMPLEMENTARY : String := "comp"
def KIND_COMPLEMENTARY_RICH : String := "comp_rich"
def KIND_XSELL : String := "xsell"
def KIND_UPSELL : String := "upsell"

def ALL_KINDS : List String :=
  [KIND_SIMILAR, KIND_COMPLEMENTARY, KIND_XSELL, KIND_UPSELL,
   KIND_SIMILAR_RICH, KIND_COMPLEMENTARY_RICH]

-- ===========================================================================
-- app/domain/models/product.py
-- ===========================================================================

/-- `Product` (pydantic model).  Only fields read by the embedded services are
carried; the model has NO `metadata`, `gender` or `parent_product_id` field,
which matters in `filters.py` where `getattr(src, ..., None)` on those names
always yields `None` for a repo-loaded `Product`. -/
structure Product where
  product_id : String
  name : String
  description : Option String := none
  category_id : Option String := none
  category_path : Option String := none
  brand : Option String := none
  stock : Option Int := none
  tags : List String := []
deriving DecidableEq, Repr

/-- `RecoItem`: `score` is pydantic-validated `ge=0`; construction sites whose
score is not syntactically nonnegative are guarded in the embedding. -/
structure RecoItem where
  product_id : String
  score : ℚ
  rationale : Option String := none
deriving DecidableEq, Repr

/-- `RecoResult`. -/
structure RecoResult where
  source_product_id : String
  items : List RecoItem
  count : Nat
deriving DecidableEq, Repr

-- ===========================================================================
-- app/domain/services/prompts.py
-- ===========================================================================

/-- `system_prompt(kind)`: kind-dispatched system message; raises `ValueError`
for kinds other than comp/sim/xsell. -/
def system_prompt (kind : String) : Except String String :=
  if kind = KIND_COMPLEMENTARY then
    .ok "You are a ranking model for PRODUCT COMPLEMENTARITY (cross-sell). Return strict JSON only."
  else if kind = KIND_SIMILAR then
    .ok "You are a ranking model for PRODUCT SUBSTITUTABILITY (similar products). Return strict JSON only."
  else if kind = KIND_XSELL then
    .ok "Rank cross-sell products for the given query product. Return strict JSON."
  else .error ("Unknown kind for system prompt: " ++ kind)

/-- `user_task(kind, include_rationale)`: kind-dispatched task instruction;
raises `ValueError` for kinds other than comp/sim/xsell.  The multi-paragraph
rubric text is an opaque payload to the completion provider and is elided here;
only the kind dispatch and the raised error are behaviourally relevant. -/
def user_task (kind : String) (include_rationale : Bool := false) : Except String String :=
  if kind = KIND_COMPLEMENTARY then
    .ok ("rank complementarity task" ++ (if include_rationale then " with rationale" else ""))
  else if kind = KIND_SIMILAR then
    .ok ("rank similarity task" ++ (if include_rationale then " with rationale" else ""))
  else if kind = KIND_XSELL then
    .ok ("rank cross-sell task" ++ (if include_rationale then " with rationale" else ""))
  else .error ("Unknown kind for user task: " ++ kind)

-- ===========================================================================
-- app/domain/services/rag_svc.py
-- ===========================================================================

/-- A chat message `{role, content}`. -/
structure Msg where
  role : String
  content : String
deriving DecidableEq, Repr

/-- `RankItem` of the validation schema: one candidate of the LLM output.
Pydantic validates `score` with `ge=0, le=1`; theorems that rely on this bound
take it as a hypothesis on the parse oracle (`ParseScoresValid` below). -/
structure RankItem where
  product_id : String
  score : ℚ
  rationale : Option String := none
deriving DecidableEq, Repr

/-- `_parse_and_validate`: JSON parsing plus pydantic schema validation is the
oracle `parse` (it is pure text processing of provider output); the
deduplication (keep the FIRST occurrence of each `product_id`) is embedded
concretely. -/
def _parse_and_validate (parse : String → Except String (List RankItem))
    (json_text : String) : Except String (List RankItem) :=
  (parse json_text).map (dedupFirstBy (·.product_id) [])

/-- The two messages appended before a retry in `_rerank_with_schema_retry`:
a corrective system message, plus a user message carrying the validation error
and the JSON schema text. -/
def retry_messages (last_err schema : String) : List Msg :=
  [{ role := "system",
     content := "Your previous response did not conform to the required JSON format. You MUST return JSON that matches the provided JSON Schema exactly. No prose, no code fences, no comments." },
   { role := "user",
     content := "Validation error was:\n" ++ last_err ++
       "\n\nHere is the JSON Schema you MUST follow exactly:\n" ++ schema ++
       "\n\nReturn ONLY a JSON object like:\n\x7b\"query_product_id\": \"...\", \"results\": [\x7b\"product_id\": \"...\", \"score\": 0.0-1.0, \"rationale\": \"...\"\x7d]\x7d" }]

/-- The retry loop of `_rerank_with_schema_retry`, with the remaining retry
budget as fuel.  Returns the list of message lists used for each attempt (in
order) and the final outcome: `ok` = the deduplicated results of the first
successful attempt, `error` = the last validation error (the Python `raise`
when `attempt == max_retries`). -/
def rerankLoop (llm : List Msg → String) (parse : String → Except String (List RankItem))
    (schema : String) : Nat → List Msg → List (List Msg) × Except String (List RankItem)
  | 0, messages => ([messages], _parse_and_validate parse (llm messages))
  | r + 1, messages =>
    match _parse_and_validate parse (llm messages) with
    | .ok items => ([messages], .ok items)
    | .error e =>
      let t := rerankLoop llm parse schema r (messages ++ retry_messages e schema)
      (messages :: t.1, t.2)

/-- `_rerank_with_schema_retry` with its default retry budget (`max_retries=2`,
i.e. at most 3 attempts). -/
def _rerank_with_schema_retry (llm : List Msg → String)
    (parse : String → Except String (List RankItem)) (schema : String)
    (messages : List Msg) (max_retries : Nat := 2) :
    List (List Msg) × Except String (List RankItem) :=
  rerankLoop llm parse schema max_retries messages

/-- `_min_score_threshold(kind)`.  Note the source quirk: `kind in (KIND_XSELL)`
is Python SUBSTRING containment in the string "xsell" (not tuple membership),
embedded by `pyStrIn`; likewise for upsell.  Both branches return the same
value (0) as the final default, so the quirk is score-invisible. -/
def _min_score_threshold (kind : String) : ℚ :=
  if kind = KIND_SIMILAR ∨ kind = KIND_SIMILAR_RICH then MIN_SCORE_RETRIEVAL_SIM
  else if kind = KIND_COMPLEMENTARY ∨ kind = KIND_COMPLEMENTARY_RICH then MIN_SCORE_RETRIEVAL_COMP
  else if pyStrIn kind KIND_XSELL then MIN_SCORE_RETRIEVAL_XSELL
  else if pyStrIn kind KIND_UPSELL then MIN_SCORE_RETRIEVAL_UPSELL
  else 0

/-- External effects consumed by `rag_answer`:
`hydrate` is the candidate-doc fetch (`prod_repo.get_many_by_product_ids`,
returning the product ids found; it may raise), `llm` is `_call_llm`, `parse`
the JSON/pydantic validation, `schema` the `RankResponse.model_json_schema()`
text and `user_json` the minified payload (`_json_minify` of query product,
candidate passages and task), both opaque strings to the ranking logic. -/
structure RagEnv where
  hydrate : Outcome (List String)
  llm : List Msg → String
  parse : String → Except String (List RankItem)
  schema : String
  user_json : String

/-- The score-blending block of `rag_answer` (lines building `blended`):
for EVERY candidate id the blend `α·llm + (1-α)·init` is appended, where an id
absent from the model output contributes `llm = 0` (`llm_score_by_id.get(pid, 0.0)`);
then, for ids that were missing from the store hydration (hence never shown to
the model), a SECOND entry carrying the bare retrieval score is appended. -/
def rag_blended (candidates : List RecoItem) (foundIds : List String)
    (ranked : List RankItem) : List (String × ℚ × Option String) :=
  let ids := candidates.map (·.product_id)
  let missing := ids.filter (fun i => ¬ foundIds.contains i)
  let init_by_id := fun pid =>
    ((lookupLast (candidates.map (fun c => (c.product_id, c.score))) pid).getD 0)
  let llm_score_by_id := fun pid =>
    lookupLast (ranked.map (fun r => (r.product_id, r.score))) pid
  let llm_rationale_by_id := fun pid =>
    lookupLast (ranked.map (fun r => (r.product_id, r.rationale))) pid
  (ids.map (fun pid =>
      (pid,
       RERANK_ALPHA * (llm_score_by_id pid).getD 0 + (1 - RERANK_ALPHA) * init_by_id pid,
       (llm_rationale_by_id pid).getD (some ""))))
  ++ missing.map (fun pid => (pid, init_by_id pid, some ""))

/-- The `filtered_blended` list of `rag_answer`: blended triples sorted by
descending blended score, keeping only those at or above the kind's minimum
threshold (`tpl[1] >= threshold`). -/
def rag_filtered (kind : String) (candidates : List RecoItem) (foundIds : List String)
    (ranked : List RankItem) : List (String × ℚ × Option String) :=
  (sortDescBy (fun t => t.2.1) (rag_blended candidates foundIds ranked)).filter
    (fun t => _min_score_threshold kind ≤ t.2.1)

/-- The tail of `rag_answer` after a successful schema retry: blend, sort,
threshold-filter, and build the `RecoItem`s (with rationale only when
requested).  The `all (0 ≤ ·)` guard embeds pydantic's `score ≥ 0`
re-validation at `RecoItem` construction. -/
def rag_success (kind : String) (incl : Bool) (candidates : List RecoItem)
    (foundIds : List String) (ranked : List RankItem) : Except String (List RecoItem) :=
  if (rag_filtered kind candidates foundIds ranked).all (fun t => 0 ≤ t.2.1) then
    .ok (if incl then
           (rag_filtered kind candidates foundIds ranked).map
             (fun t => { product_id := t.1, score := t.2.1, rationale := t.2.2 })
         else
           (rag_filtered kind candidates foundIds ranked).map
             (fun t => { product_id := t.1, score := t.2.1, rationale := none }))
  else .error "RecoItem score validation failed"

/-- The `try`-block of `rag_answer`: call `_rerank_with_schema_retry` on the
built messages; a raised validation error after the retry budget is caught
and FAILS OPEN to the original candidates. -/
def rag_after_prompts (env : RagEnv) (kind : String) (incl : Bool)
    (candidates : List RecoItem) (foundIds : List String) (sys : String) :
    Except String (List RecoItem) :=
  match (_rerank_with_schema_retry env.llm env.parse env.schema
           [⟨"system", sys⟩, ⟨"user", env.user_json⟩]).2 with
  | .error _ => .ok candidates
  | .ok ranked => rag_success kind incl candidates foundIds ranked

/-- `rag_answer`: RAG re-ranking with schema-validated LLM output, retry, and
fail-open fallback.  `error` = a raised exception (doc hydration failure, or
the `ValueError` of `user_task`/`system_prompt` for kinds they do not know —
both happen BEFORE the fail-open `try` and therefore propagate). -/
def rag_answer (env : RagEnv) (kind : String) (incl : Bool)
    (candidates : List RecoItem) : Except String (List RecoItem) :=
  if candidates.isEmpty then .ok candidates
  else
    match env.hydrate with
    | .err e => .error e
    | .ok foundIds =>
      match user_task kind incl with
      | .error e => .error e
      | .ok _task =>
        match system_prompt kind with
        | .error e => .error e
        | .ok sys => rag_after_prompts env kind incl candidates foundIds sys

-- ===========================================================================
-- app/domain/services/filters.py
-- ===========================================================================

/-- Python truthiness of an optional string (`if s:`): `None` and `""` are
falsy. -/
def optTruthy (o : Option String) : Option String :=
  o.bind (fun s => if s = "" then none else some s)

/-- A JSON scalar appearing in filter clauses. -/
inductive JVal where
  | s (v : String)
  | q (v : ℚ)
  | b (v : Bool)
deriving DecidableEq, Repr

/-- An Atlas Search compound-filter clause as built by `default_filters` and
consumed by `_to_mql` (`equals | range | in | exists | text | not`). -/
inductive FilterClause where
  | equals (path : String) (value : JVal)
  | rangeC (path : String) (gt gte lt lte : Option JVal)
  | inC (path : String) (values : List JVal)
  | existsC (path : String) (value : Bool)
  | textC (path : String) (query : String)
  | notC (inner : FilterClause)
deriving DecidableEq, Repr

/-- `default_filters(kind, src)`: the `filter` array of the returned
`{"compound": {"filter": [...]}}` dict.  For a repo-loaded `Product`,
`getattr(src, "gender", None)`, `getattr(src, "metadata", {})` and
`getattr(src, "parent_product_id", None)` all miss (the pydantic model has no
such fields), so `_extract_gender` returns `None` (no gender clause is ever
emitted here) and the variant-exclusion anchor is always `src.product_id`. -/
def default_filters (kind : String) (src : Product) : List FilterClause :=
  let filters : List FilterClause := [.rangeC "stock" (some (.q 0)) none none none]
  if kind = KIND_COMPLEMENTARY then
    filters
    ++ (optTruthy src.category_id).elim [] (fun cid => [.notC (.equals "category_id" (.s cid))])
    ++ (if src.tags ≠ [] then [FilterClause.textC "tags" (String.intercalate " " src.tags)] else [])
    ++ (optTruthy (some src.name)).elim [] (fun n => [.notC (.equals "name" (.s n))])
  else if kind = KIND_SIMILAR then
    filters
    ++ (optTruthy src.category_id).elim [] (fun cid => [.equals "category_id" (.s cid)])
    ++ (optTruthy (some src.name)).elim [] (fun n => [.notC (.equals "name" (.s n))])
    ++ (optTruthy (some src.product_id)).elim []
         (fun anchor => [.notC (.equals "parent_product_id" (.s anchor))])
  else filters

-- ===========================================================================
-- app/domain/repositories/product_search_repo.py
-- ===========================================================================

def VECTOR_INDEX : String := "vector_index"
def TEXT_INDEX : String := "text_index"

/-- An MQL filter expression as produced by `_to_mql` and the `$and`/`$ne`
assembly of `vector_search` / `text_search_fallback`. -/
inductive Mql where
  | eqv (path : String) (value : JVal)
  | opsv (path : String) (ops : List (String × JVal))
  | inv (path : String) (values : List JVal)
  | exv (path : String) (value : Bool)
  | nev (path : String) (value : JVal)
  | andv (clauses : List Mql)
deriving Repr

/-- The `text` operator inside a `$search` compound `must`. -/
structure TextClause where
  query : String
  path : List String
  fuzzyMaxEdits : Option Nat := none
  fuzzyPrefixLength : Option Nat := none
deriving DecidableEq, Repr

/-- A `$search` compound query dict as built by `retrieve_candidates`.
`filter = none` models the `filter` KEY being absent from the dict;
`filter = some []` models a present-but-empty `filter: []`. -/
structure CompoundQuery where
  must : List TextClause
  filter : Option (List FilterClause)
deriving DecidableEq, Repr

/-- The compound query of `text_search_fallback` (its `filter` entries are raw
MQL dicts, not Atlas clauses).  The source always assigns the `filter` key
(`[filt] if filt else []`), so a builder producing `none` here would model a
query with the key omitted — which this code never does. -/
structure TsfCompound where
  must : List TextClause
  filter : Option (List Mql)
deriving Repr

/-- An aggregation pipeline stage, restricted to the stages the repository
actually builds. -/
inductive Stage where
  | vectorSearchStage (index path : String) (queryVector : List ℚ) (numCandidates limit : Nat)
  | matchStage (filt : Mql)
  | addFieldsScore (metaField : String)
  | projectStage
  | searchStage (index : String) (query : CompoundQuery)
  | searchStageMql (index : String) (query : TsfCompound)
  | limitStage (n : Nat)
deriving Repr

/-- A document coming back from an aggregation, reduced to the fields the
adapter consumes (`product_id` and the added `score`; `r.get("score", 0)`
defaults a missing score to 0, which the model folds into `score`). -/
structure SearchDoc where
  product_id : String
  score : ℚ
deriving DecidableEq, Repr

/-- `_to_mql`: converts one Atlas compound clause to MQL; `text`/`not` clauses
(and a `range` with no bounds) convert to `None` and are dropped. -/
def to_mql : FilterClause → Option Mql
  | .equals path v => some (.eqv path v)
  | .rangeC path gt gte lt lte =>
    let ops := (match gt with | some v => [("$gt", v)] | none => [])
            ++ (match gte with | some v => [("$gte", v)] | none => [])
            ++ (match lt with | some v => [("$lt", v)] | none => [])
            ++ (match lte with | some v => [("$lte", v)] | none => [])
    if ops.isEmpty then none else some (.opsv path ops)
  | .inC path vals => some (.inv path vals)
  | .existsC path b => some (.exv path b)
  | _ => none

/-- The `filt` assembly of `vector_search`: `must_filters = some l` models a
truthy `{"compound": {"filter": l}}` dict; `none` models `None` (or `{}`). -/
def vector_search_filt (must_filters : Option (List FilterClause))
    (exclude_product_id : Option String) : Option Mql :=
  match must_filters with
  | some clauses =>
    let mql := clauses.filterMap to_mql
    let mql := mql ++ (match exclude_product_id with
                       | some e => [Mql.nev "product_id" (.s e)]
                       | none => [])
    match mql with
    | [] => none
    | [m] => some m
    | ms => some (.andv ms)
  | none =>
    match exclude_product_id with
    | some e => some (.nev "product_id" (.s e))
    | none => none

/-- The aggregation pipeline of `ProductSearchRepo.vector_search`: the MQL
filter is applied as a separate `$match` stage appended ONLY when `filt` is
nonempty (`if filt: pipeline.append({"$match": filt})`). -/
def vector_search_pipeline (query_vector : List ℚ) (limit num_candidates : Nat)
    (exclude_product_id : Option String) (must_filters : Option (List FilterClause))
    (path : String) : List Stage :=
  [Stage.vectorSearchStage VECTOR_INDEX path query_vector num_candidates limit]
  ++ (match vector_search_filt must_filters exclude_product_id with
      | some f => [Stage.matchStage f]
      | none => [])
  ++ [Stage.addFieldsScore "vectorSearchScore", Stage.projectStage]

/-- `ProductSearchRepo.vector_search`, with the collection's aggregation
executor as the store oracle. -/
def ProductSearchRepo.vector_search (agg : List Stage → Outcome (List SearchDoc))
    (query_vector : List ℚ) (limit num_candidates : Nat)
    (exclude_product_id : Option String) (must_filters : Option (List FilterClause))
    (path : String) : Outcome (List SearchDoc) :=
  agg (vector_search_pipeline query_vector limit num_candidates exclude_product_id must_filters path)

/-- The `filt` assembly of `text_search_fallback` (`must_filters or {}`, then
`$and` with the product-id exclusion). -/
def text_search_fallback_filt (must_filters : Option Mql)
    (exclude_product_id : Option String) : Option Mql :=
  match must_filters, exclude_product_id with
  | some f, some e => some (.andv [f, .nev "product_id" (.s e)])
  | some f, none => some f
  | none, some e => some (.nev "product_id" (.s e))
  | none, none => none

/-- The compound of the `$search` stage of `text_search_fallback`: the
`filter` key is ALWAYS present (`"filter": [filt] if filt else []`). -/
def text_search_fallback_compound (query_text : String)
    (exclude_product_id : Option String) (must_filters : Option Mql) : TsfCompound :=
  { must := [{ query := query_text, path := ["name", "description", "brand", "tags"] }],
    filter := some (match text_search_fallback_filt must_filters exclude_product_id with
                    | some f => [f]
                    | none => []) }

/-- The aggregation pipeline of `ProductSearchRepo.text_search_fallback`. -/
def text_search_fallback_pipeline (query_text : String) (limit : Nat)
    (exclude_product_id : Option String) (must_filters : Option Mql) : List Stage :=
  [Stage.searchStageMql TEXT_INDEX (text_search_fallback_compound query_text exclude_product_id must_filters),
   Stage.addFieldsScore "searchScore", Stage.projectStage, Stage.limitStage limit]

/-- `ProductSearchRepo.execute_atlas_search` for the query shapes reachable
from `retrieve_candidates`: a text compound query contains no `vectorSearch`
or `knnBeta` operator, so `_find_op` finds nothing and the `$search` stage is
built over `TEXT_INDEX` with the query verbatim (including a present-but-empty
`compound.filter`).  The optional exclusion branch appends a `not`-`equals`
clause, creating the `filter` key when absent. -/
def execute_atlas_search (agg : List Stage → Outcome (List SearchDoc))
    (search_query : CompoundQuery) (limit : Nat)
    (exclude_product_id : Option String := none) : Outcome (List SearchDoc) :=
  let search_query :=
    match exclude_product_id with
    | some e =>
      { search_query with
        filter := some ((search_query.filter.getD [])
                        ++ [FilterClause.notC (.equals "product_id" (.s e))]) }
    | none => search_query
  agg [Stage.searchStage TEXT_INDEX search_query,
       Stage.addFieldsScore "searchScore", Stage.projectStage, Stage.limitStage limit]

-- ===========================================================================
-- app/domain/services/retrieval.py
-- ===========================================================================

/-- `_vector_path(kind)`. -/
def _vector_path (kind : String := "sim") : String := "vectors." ++ kind ++ ".vector"

/-- The `search_query` dict built for the Atlas text fallback inside
`retrieve_candidates`: the `filter` key is ALWAYS set, to
`must_filters["compound"]["filter"]` if filters were given and `[]` otherwise. -/
def fallback_search_query (text_query : String)
    (must_filters : Option (List FilterClause)) : CompoundQuery :=
  { must := [{ query := text_query,
               path := ["name", "description", "tags", "brand"],
               fuzzyMaxEdits := some 1, fuzzyPrefixLength := some 3 }],
    filter := some (match must_filters with | some l => l | none => []) }

/-- The `RecoItem` list built from raw docs.  Pydantic rejects a negative
score (`Field(ge=0)`) which, inside each phase's `try`, turns the whole phase
into `[]`; call sites guard with `all (0 ≤ ·.score)`. -/
def recoItemsOfDocs (raw : List SearchDoc) : List RecoItem :=
  raw.map (fun d => { product_id := d.product_id, score := d.score })

/-- The common tail of both retrieval phases: a raised search error gives
`[]`; on success the docs become `RecoItem`s unless pydantic rejects a
negative score, which (inside the phase's `try`) also collapses to `[]`. -/
def docsPhase (o : Outcome (List SearchDoc)) : List RecoItem :=
  match o with
  | .err _ => []
  | .ok raw => if raw.all (fun d => 0 ≤ d.score) then recoItemsOfDocs raw else []

/-- The vector phase of `retrieve_candidates` (skipped when `vec` is falsy:
`None` OR the empty list); a raised search error, or a pydantic rejection of
a negative score, collapses the phase to `[]`. -/
def retrieve_vector_phase (agg : List Stage → Outcome (List SearchDoc))
    (vec : Option (List ℚ)) (must_filters : Option (List FilterClause))
    (retrieval_k : Nat) (kind : String) : List RecoItem :=
  match vec with
  | some (v₀ :: v) =>
    docsPhase (ProductSearchRepo.vector_search agg (v₀ :: v) retrieval_k
      (max 200 (10 * retrieval_k)) none must_filters (_vector_path kind))
  | _ => []

/-- The Atlas text-fallback phase of `retrieve_candidates`. -/
def retrieve_text_phase (agg : List Stage → Outcome (List SearchDoc))
    (text_query : String) (must_filters : Option (List FilterClause))
    (retrieval_k : Nat) : List RecoItem :=
  docsPhase (execute_atlas_search agg (fallback_search_query text_query must_filters) retrieval_k)

/-- `retrieve_candidates`: vector phase first, then the text fallback iff the
vector phase produced nothing and the fallback text is nonempty; each phase
swallows its own exceptions into `[]`. -/
def retrieve_candidates (agg : List Stage → Outcome (List SearchDoc))
    (vec : Option (List ℚ)) (text_query : String)
    (must_filters : Option (List FilterClause)) (retrieval_k : Nat)
    (kind : String := "sim") : List RecoItem :=
  if (retrieve_vector_phase agg vec must_filters retrieval_k kind).isEmpty
      && text_query ≠ "" then
    retrieve_text_phase agg text_query must_filters retrieval_k
  else retrieve_vector_phase agg vec must_filters retrieval_k kind

-- ===========================================================================
-- app/domain/repositories/reco_product_cache_repo.py
-- ===========================================================================

/-- The cache key of `RecoProductsCacheRepo.key`
(`f"{version}:{prefix}:{product_id}:{_h(filt, model, limit)}"`), with the
truncated-SHA1 `_h` modelled injectively by keeping the hashed dict
`{"f": filters, "m": model, "k": limit}` structurally, together with the
`cache_filters` dict that `pipeline_svc.build_cache_key` passes as `filt`
(`_must`, `_rerank`, `_retrieval_k`, `_final_k`, `_kind`).  `must = none`
models the `{}` that `must_filters or {}` produces.  The repo's `key_prefix`
field is named `pfx` (its Python name collides with a Lean keyword). -/
structure RecoCacheKey where
  version : String
  pfx : String
  product_id : String
  must : Option (List FilterClause)
  rerank : Bool
  retrieval_k : Nat
  final_k : Nat
  kind : String
  limit : Nat
  model : String
deriving DecidableEq, Repr

/-- `RecoProductsCacheRepo.get`: `None` on a miss; NOTE that a stored empty
list comes back as `some []`, because the raw cached string `"[]"` is truthy
(`if raw:` passes) and deserialises to the empty list. -/
def RecoProductsCacheRepo.get (cache : List (RecoCacheKey × List RecoItem))
    (k : RecoCacheKey) : Option (List RecoItem) :=
  (cache.find? (fun p => p.1 == k)).map (·.2)

/-- `RecoProductsCacheRepo.set`: overwrite-by-shadowing (lookup reads the most
recent entry; TTLs are not modelled). -/
def RecoProductsCacheRepo.set (cache : List (RecoCacheKey × List RecoItem))
    (k : RecoCacheKey) (items : List RecoItem) : List (RecoCacheKey × List RecoItem) :=
  (k, items) :: cache

-- ===========================================================================
-- app/domain/services/pipeline_svc.py
-- ===========================================================================

/-- The configuration fields `recommend` reads. -/
structure PSettings where
  product_cache_ttl : Nat := 300
  OPENAI_EMBEDDING_MODEL : String := "text-embedding-3-small"
deriving DecidableEq, Repr

/-- The external state `recommend` reads and writes: the Redis result cache,
the `products` collection, plus an effect counter for
`ProductRepo.get_by_product_id` calls (observing the negative-cache claim). -/
structure World where
  cache : List (RecoCacheKey × List RecoItem) := []
  products : List Product := []
  lookups : Nat := 0
deriving DecidableEq, Repr

/-- The arguments of one `recommend` request. -/
structure Req where
  kind : String
  version : String
  product_id : String
  must_filters : Option (List FilterClause) := none
  use_text_fallback : Bool := true
  use_llm : Bool := true
  include_rationale : Bool := false
deriving Repr

/-- The fallible external capabilities one `recommend` call consumes:
`embed` is the `get_or_create_embedding` call (`err` = raised, caught into
`vec = None`), `agg` executes store aggregation pipelines, `rag` feeds
`rag_answer`. -/
structure PExt where
  embed : Outcome (Option (List ℚ))
  agg : List Stage → Outcome (List SearchDoc)
  rag : RagEnv

/-- `_text_fallback(kind, src)`: raises `ValueError` for any kind other than
comp/sim ("kind must be known to avoid silent misrouting"). -/
def _text_fallback (kind : String) (src : Product) : Except String String :=
  let tags := String.intercalate " " src.tags
  let base_info := (src.name ++ " " ++ (src.brand.getD "") ++ " " ++ (src.category_id.getD "")
                    ++ " " ++ (src.category_path.getD "") ++ " " ++ tags).trim
  if kind = KIND_COMPLEMENTARY then
    .ok ("products commonly used, worn, or bought together with " ++ base_info)
  else if kind = KIND_SIMILAR then
    .ok ("products similar to " ++ base_info)
  else .error ("Unknown kind for text fallback: " ++ kind)

/-- `build_cache_key(with_llm)` inside `recommend`. -/
def build_cache_key (settings : PSettings) (req : Req) (with_llm : Bool) : RecoCacheKey :=
  { version := req.version, pfx := req.kind, product_id := req.product_id,
    must := req.must_filters,
    rerank := with_llm, retrieval_k := RETRIEVAL_K, final_k := FINAL_K,
    kind := req.kind, limit := FINAL_K, model := settings.OPENAI_EMBEDDING_MODEL }

/-- Step 7 of `recommend` (truncate, cache under the key of what actually
happened, extra non-LLM write when LLM was requested but `llm_applied` is
false, return). -/
def recommend_finish (settings : PSettings) (req : Req) (w : World)
    (items : List RecoItem) (llm_applied : Bool) : Except String (RecoResult × World) :=
  let items := items.take FINAL_K
  let final_cache_key := build_cache_key settings req llm_applied
  let w := { w with cache := RecoProductsCacheRepo.set w.cache final_cache_key items }
  let w :=
    if req.use_llm && !llm_applied then
      { w with cache := RecoProductsCacheRepo.set w.cache (build_cache_key settings req false) items }
    else w
  .ok ({ source_product_id := req.product_id, items := items, count := items.length }, w)

/-- Steps 6–7 of `recommend`: optional LLM reranking with the
non-LLM-cache fallback on a RAISED rerank error (note `rag_answer` itself
fails open on LLM/validation failure, returning `ok` — so `llm_applied` is
true in that case), then finish. -/
def recommend_rerank (settings : PSettings) (req : Req) (ext : PExt) (w : World)
    (items : List RecoItem) : Except String (RecoResult × World) :=
  if !items.isEmpty && req.use_llm then
    match rag_answer ext.rag req.kind req.include_rationale items with
    | .ok items2 => recommend_finish settings req w items2 true
    | .error _ =>
      match RecoProductsCacheRepo.get w.cache (build_cache_key settings req false) with
      | some (c :: cs) =>
        .ok ({ source_product_id := req.product_id, items := c :: cs,
               count := (c :: cs).length }, w)
      | _ => recommend_finish settings req w items false
  else recommend_finish settings req w items false

/-- `recommend`: the end-to-end pipeline.  `error e` models an exception
propagating to the caller.  The result-cache hit test is `if cached := ...:`,
Python truthiness — a cached EMPTY list is falsy and does NOT short-circuit
(the pipeline runs again). -/
def recommend (settings : PSettings) (req : Req) (ext : PExt) (w : World) :
    Except String (RecoResult × World) :=
  let reco_cache_key := build_cache_key settings req req.use_llm
  match RecoProductsCacheRepo.get w.cache reco_cache_key with
  | some (c :: cs) =>
    .ok ({ source_product_id := req.product_id, items := c :: cs, count := (c :: cs).length }, w)
  | _ =>
    let w := { w with lookups := w.lookups + 1 }
    match w.products.find? (fun p => p.product_id == req.product_id) with
    | none =>
      let w := { w with cache := RecoProductsCacheRepo.set w.cache reco_cache_key [] }
      .ok ({ source_product_id := req.product_id, items := [], count := 0 }, w)
    | some src =>
      let vec : Option (List ℚ) := match ext.embed with | .ok v => v | .err _ => none
      let eff_filters : Option (List FilterClause) :=
        match req.must_filters with
        | some l => some l
        | none => some (default_filters req.kind src)
      match (if req.use_text_fallback then _text_fallback req.kind src else .ok "") with
      | .error e => .error e
      | .ok text_query =>
        let items := retrieve_candidates ext.agg vec text_query eff_filters RETRIEVAL_K
        recommend_rerank settings req ext w items

-- ===========================================================================
-- app/domain/repositories/vector_cache_repo.py and app/utils/locks.py
-- ===========================================================================

/-- `VectorCacheRepo.key(product_id, model)` =
`f"{prefix}:{_stable_hash(model)}:{product_id}"` with prefix `"vec"`; the
truncated SHA1 `_stable_hash` is the oracle `hashModel`. -/
def VectorCacheRepo.key (hashModel : String → String) (name model : String) : String :=
  "vec:" ++ hashModel model ++ ":" ++ name

/-- `RedisLock` key namespacing: `self.key = f"lock:{key}"`. -/
def RedisLock.lockKeyOf (key : String) : String := "lock:" ++ key

/-- Number of `redis.exists` polls `RedisLock.wait` performs: the loop body
runs up to `timeout*10` times (`fuel`), checking the LOCK key each iteration
and returning as soon as the key is gone; `existsAt i` is the store's answer
to the `i`-th poll. -/
def RedisLock.waitPollCount (fuel : Nat) (existsAt : Nat → Bool) (i : Nat) : Nat :=
  match fuel with
  | 0 => 0
  | f + 1 => if existsAt i then 1 + RedisLock.waitPollCount f existsAt (i + 1) else 1

/-- Number of `asyncio.sleep(0.1)` calls `RedisLock.wait` performs (one after
every poll that still saw the lock key). -/
def RedisLock.waitSleepCount (fuel : Nat) (existsAt : Nat → Bool) (i : Nat) : Nat :=
  match fuel with
  | 0 => 0
  | f + 1 => if existsAt i then 1 + RedisLock.waitSleepCount f existsAt (i + 1) else 0

-- ===========================================================================
-- app/domain/services/embedding_svc.py
-- ===========================================================================

/-- `" | ".join(filter(None, parts))`: drop `None` and empty strings, join. -/
def joinNonEmpty (parts : List (Option String)) : String :=
  String.intercalate " | " ((parts.filterMap id).filter (fun s => s ≠ ""))

/-- `_text_for_sim`. -/
def _text_for_sim (product : Product) : String :=
  joinNonEmpty
    [some product.name,
     product.brand,
     some ((product.description.getD "").take 220),
     some (String.intercalate " " product.tags)]

/-- `_text_for_comp`. -/
def _text_for_comp (product : Product) : String :=
  joinNonEmpty
    [some ("Product name: " ++ product.name),
     (optTruthy product.brand).map (fun b => "Brand: " ++ b),
     (optTruthy product.category_id).map (fun c => "Category: " ++ c),
     (optTruthy product.category_path).map (fun c => "Category Path: " ++ c),
     (if product.tags ≠ [] then some ("Tags: " ++ String.intercalate " " product.tags) else none),
     some "Find products commonly used, worn, or purchased together with this item (either as base or accessory).",
     some ((product.description.getD "").take 200)]

/-- `_text_generic`: fallback representation for unknown kinds. -/
def _text_generic (product : Product) : String :=
  joinNonEmpty
    [some product.name,
     product.brand,
     some ((product.description.getD "").take 200),
     some (String.intercalate " " product.tags),
     (optTruthy product.category_id).map (fun c => "Category: " ++ c),
     (optTruthy product.category_path).map (fun c => "Category Path: " ++ c)]

/-- `TEXT_BUILDERS.get(kind, _text_generic)`. -/
def TEXT_BUILDERS (kind : String) : Product → String :=
  if kind = KIND_SIMILAR then _text_for_sim
  else if kind = KIND_COMPLEMENTARY then _text_for_comp
  else _text_generic

/-- The configuration fields `get_or_create_embedding` reads. -/
structure ESettings where
  vector_cache_ttl : Nat := 3600
  vector_lock_ttl : Nat := 20
  OPENAI_EMBEDDING_MODEL : String := "text-embedding-3-small"
deriving DecidableEq, Repr

/-- The external world one `get_or_create_embedding` call interacts with, as
per-call oracles: the two cache reads (`cacheGet1` before locking, `cacheGet2`
the double-check after acquiring), the Mongo vector read, the lock
acquisition outcome, the lock-key existence answers for the wait loop, the
cache read performed after the wait, the source product, and the provider
(`embeddings.create` output for a given input text). -/
structure EmbEnv where
  modelHash : String → String
  cacheGet1 : Option (List ℚ)
  dbVec : Option (List ℚ)
  lockAcquired : Bool
  lockExistsAt : Nat → Bool
  cacheGetAfterWait : Option (List ℚ)
  cacheGet2 : Option (List ℚ)
  product : Option Product
  provider : String → List ℚ

/-- The observable effects of one `get_or_create_embedding` call. -/
structure EmbOut where
  result : Option (List ℚ)
  embedCalls : Nat
  polledKeys : List String
  sleepsSeconds : List ℚ
  releasedLock : Bool
  cacheWrites : List (String × List ℚ)
  dbWrites : List (String × List ℚ)
deriving DecidableEq, Repr

/-- `get_or_create_embedding`: Redis cache → Mongo `vectors.<kind>` fallback →
compute under a Redis lock.  Every `if v := await cache.get(...)`-style hit
test is Python truthiness, so an empty-list value does not count as a hit.
When lock acquisition fails, the call waits on the LOCK key (`lock.wait`,
polling `exists(lock_key)` every 0.1 s for at most `vector_lock_ttl` seconds)
and then returns the cache content verbatim — it never touches the provider.
The `finally` releases the lock only when it was acquired. -/
def get_or_create_embedding (s : ESettings) (env : EmbEnv) (product_id kind : String)
    (use_db_fallback : Bool := true) (write_back_db : Bool := false) : EmbOut :=
  let cache_key := VectorCacheRepo.key env.modelHash (product_id ++ ":" ++ kind)
                     s.OPENAI_EMBEDDING_MODEL
  match env.cacheGet1 with
  | some (x :: xs) =>
    { result := some (x :: xs), embedCalls := 0, polledKeys := [], sleepsSeconds := [],
      releasedLock := false, cacheWrites := [], dbWrites := [] }
  | _ =>
    match (if use_db_fallback then env.dbVec else none) with
    | some (y :: ys) =>
      { result := some (y :: ys), embedCalls := 0, polledKeys := [], sleepsSeconds := [],
        releasedLock := false, cacheWrites := [(cache_key, y :: ys)], dbWrites := [] }
    | _ =>
      let lock_key := RedisLock.lockKeyOf cache_key
      if env.lockAcquired then
        match env.cacheGet2 with
        | some (z :: zs) =>
          { result := some (z :: zs), embedCalls := 0, polledKeys := [], sleepsSeconds := [],
            releasedLock := true, cacheWrites := [], dbWrites := [] }
        | _ =>
          match env.product with
          | none =>
            { result := none, embedCalls := 0, polledKeys := [], sleepsSeconds := [],
              releasedLock := true, cacheWrites := [], dbWrites := [] }
          | some product =>
            let text := TEXT_BUILDERS kind product
            let vec := env.provider text
            { result := some vec, embedCalls := 1, polledKeys := [], sleepsSeconds := [],
              releasedLock := true, cacheWrites := [(cache_key, vec)],
              dbWrites := if write_back_db then [("vectors." ++ kind, vec)] else [] }
      else
        let polls := RedisLock.waitPollCount (s.vector_lock_ttl * 10) env.lockExistsAt 0
        let sleeps := RedisLock.waitSleepCount (s.vector_lock_ttl * 10) env.lockExistsAt 0
        { result := env.cacheGetAfterWait, embedCalls := 0,
          polledKeys := List.replicate polls lock_key,
          sleepsSeconds := List.replicate sleeps (1 / 10 : ℚ),
          releasedLock := false, cacheWrites := [], dbWrites := [] }

-- ===========================================================================
-- app/domain/services/xsell_svc.py
-- ===========================================================================

/-- One interaction record of the `events` collection, reduced to the fields
the cross-sell aggregation reads (`metadata.order_id` inlined as `order_id`). -/
structure Event where
  event_type : String
  user_id : Option String := none
  product_id : String
  order_id : Option String := none
  session_id : Option String := none
deriving DecidableEq, Repr

/-- The order key `ok = $ifNull(metadata.order_id, session_id)`. -/
def Event.orderKey (e : Event) : Option String :=
  match e.order_id with
  | some o => some o
  | none => e.session_id

/-- `_get_user_purchased_product_ids`: distinct product ids of the user's
purchase events (distinct = set; modelled first-seen-ordered). -/
def _get_user_purchased_product_ids (events : List Event) (user_id : String) : List String :=
  dedupFirst ((events.filter (fun e => e.event_type == "purchase"
                && e.user_id == some user_id)).map (·.product_id))

/-- `_get_user_cart_product_ids`: distinct product ids of the user's
add-to-cart events. -/
def _get_user_cart_product_ids (events : List Event) (user_id : String) : List String :=
  dedupFirst ((events.filter (fun e => e.event_type == "add_to_cart"
                && e.user_id == some user_id)).map (·.product_id))

/-- One output doc of the co-purchase mining pipeline. -/
structure CoDoc where
  product_id : String
  count : Nat
deriving DecidableEq, Repr

/-- `_mine_xsell_candidates`: match purchase events (optionally one user's),
group by order key collecting each order's product set (`$addToSet`), keep
orders containing the target, take each order's set MINUS the target
(`$setDifference`), unwind and count co-occurrences, sort by count
descending, limit to `prelimit`. -/
def _mine_xsell_candidates (events : List Event) (product_id : String)
    (user_id : Option String) (prelimit : Nat) : List CoDoc :=
  let evs := events.filter (fun e => e.event_type == "purchase")
  let evs : List Event :=
    match user_id with
    | some uid => evs.filter (fun e => e.user_id == some uid)
    | none => evs
  let keys := dedupFirst (evs.map Event.orderKey)
  let groups := keys.map (fun k =>
    dedupFirst ((evs.filter (fun e => Event.orderKey e == k)).map (·.product_id)))
  let cos := groups.filterMap (fun prods =>
    if product_id ∈ prods then some (prods.filter (fun p => p ≠ product_id)) else none)
  let allCo := cos.flatten
  let counts := (dedupFirst allCo).map (fun c =>
    ({ product_id := c, count := allCo.count c } : CoDoc))
  (sortDescBy (fun d => (d.count : ℚ)) counts).take prelimit

/-- A `products` collection document as projected by the cross-sell service. -/
structure ProductDoc where
  product_id : String
  name : Option String := none
  brand : Option String := none
  category_id : Option String := none
deriving DecidableEq, Repr

/-- The structured content of the cross-sell cache key
(`"xsell:" + md5(json of this dict)`; md5 modelled injectively by keeping the
dict structurally). -/
structure XKey where
  v : String
  pid : String
  uid : Option String
  limit : Nat
  llm : Bool
  r : Bool
  excl_p : Bool
  excl_c : Bool
  brand : Option String
  category_id : Option String
deriving DecidableEq, Repr

/-- The external state `get_xsell_products_cached_for_product` touches. -/
structure XWorld where
  cache : List (XKey × RecoResult) := []
  events : List Event := []
  products : List ProductDoc := []
deriving DecidableEq, Repr

/-- The fallible capabilities of one cross-sell call: `redisOk = false` makes
every `redis.get`/`redis.set` raise, which the service's `try/except` blocks
turn into a cache miss / a skipped write; `rag` feeds `rag_answer`. -/
structure XExt where
  redisOk : Bool
  rag : RagEnv

/-- The brand/category admission test of step 2c (`d.get("brand") != brand`
skips; a product doc is allowed iff it matches every given filter value). -/
def xsellDocAllowed (brand category_id : Option String) (d : ProductDoc) : Bool :=
  (match optTruthy brand with
   | some b => d.brand == some b
   | none => true)
  && (match optTruthy category_id with
      | some c => d.category_id == some c
      | none => true)

/-- A guarded cross-sell cache write (`try: redis.set ... except: pass`). -/
def xSet (w : XWorld) (redisOk : Bool) (k : XKey) (res : RecoResult) : XWorld :=
  if redisOk then { w with cache := (k, res) :: w.cache } else w

/-- The `RecoResult(source_product_id=product_id, count=0, items=[])` built at
every empty-result exit, cached then returned. -/
def xEmptyReturn (w : XWorld) (redisOk : Bool) (k : XKey) (product_id : String) :
    RecoResult × XWorld :=
  let empty : RecoResult := { source_product_id := product_id, items := [], count := 0 }
  (empty, xSet w redisOk k empty)

/-- Steps 3–6 of `get_xsell_products_cached_for_product` (normalise counts,
optional LLM rerank with fallback to counts, truncate, build and cache the
result), factored out after the early-exit checks. -/
def xsellFinish (w : XWorld) (ext : XExt) (cache_key : XKey) (product_id : String)
    (limit : Nat) (use_llm_rerank include_rationale : Bool) (mined : List CoDoc) :
    RecoResult × XWorld :=
  let max_count : ℕ := ((mined.map (·.count)).max?).getD 1
  let candidates := mined.filterMap (fun m =>
    if m.product_id ≠ product_id then
      some ({ product_id := m.product_id, score := (m.count : ℚ) / (max_count : ℚ) } : RecoItem)
    else none)
  let ranked :=
    if use_llm_rerank then
      match rag_answer ext.rag KIND_XSELL include_rationale candidates with
      | .ok r => r
      | .error _ => candidates
    else candidates
  let items := (ranked.take limit).map (fun r =>
    ({ product_id := r.product_id, score := r.score,
       rationale := if include_rationale then r.rationale else none } : RecoItem))
  let result : RecoResult := { source_product_id := product_id, items := items,
                               count := items.length }
  (result, xSet w ext.redisOk cache_key result)

/-- Step 2b of the cross-sell service: when a user id is given and at least
one exclusion flag is set, drop candidates in the union of the user's
purchased/cart product ids (a Python `set`, modelled by list append — only
membership is consumed) and drop the source product again. -/
def xsellStep2b (events : List Event) (product_id : String) (user_id : Option String)
    (exclude_already_purchased exclude_already_in_cart : Bool)
    (mined : List CoDoc) : List CoDoc :=
  match user_id with
  | some uid =>
    if exclude_already_purchased || exclude_already_in_cart then
      mined.filter (fun m =>
        m.product_id ∉
          ((if exclude_already_purchased then _get_user_purchased_product_ids events uid else [])
           ++ (if exclude_already_in_cart then _get_user_cart_product_ids events uid else []))
        && m.product_id ≠ product_id)
    else mined
  | none => mined

/-- Step 2c of the cross-sell service: the optional brand/category filter via
the products collection. -/
def xsellStep2c (products : List ProductDoc) (brand category_id : Option String)
    (mined : List CoDoc) : List CoDoc :=
  if (optTruthy brand).isSome || (optTruthy category_id).isSome then
    mined.filter (fun m =>
      m.product_id ∈
        ((products.filter (fun d => d.product_id ∈ mined.map (fun x => x.product_id))).filter
            (xsellDocAllowed brand category_id)).map (fun d => d.product_id))
  else mined

/-- `get_xsell_products_cached_for_product`: the cross-sell entry point.  The
cache-hit test is on the RAW cached string, which is truthy for every stored
`RecoResult` (a JSON object text is nonempty), so unlike `recommend` a cached
EMPTY result IS served.  The mining/exclusion/filter early exits each cache
and return an empty result.  An `isEmpty` check after the (conditional)
history-exclusion step is equivalent to the source's in-branch check because
`mined` was already known nonempty when the branch is skipped. -/
def get_xsell_products_cached_for_product (w : XWorld) (ext : XExt)
    (version product_id : String) (user_id : Option String := none) (limit : Nat := 10)
    (use_llm_rerank : Bool := true) (include_rationale : Bool := false)
    (brand : Option String := none) (category_id : Option String := none)
    (exclude_already_purchased : Bool := true) (exclude_already_in_cart : Bool := true) :
    RecoResult × XWorld :=
  let cache_key : XKey :=
    { v := version, pid := product_id, uid := user_id, limit := limit,
      llm := use_llm_rerank, r := include_rationale, excl_p := exclude_already_purchased,
      excl_c := exclude_already_in_cart, brand := brand, category_id := category_id }
  match (if ext.redisOk then (w.cache.find? (fun p => p.1 == cache_key)).map (·.2) else none) with
  | some result => (result, w)
  | none =>
    match w.products.find? (fun p => p.product_id == product_id) with
    | none => xEmptyReturn w ext.redisOk cache_key product_id
    | some _src =>
      let mined := _mine_xsell_candidates w.events product_id user_id (max (limit * 4) limit)
      if mined.isEmpty then xEmptyReturn w ext.redisOk cache_key product_id
      else
        let mined := xsellStep2b w.events product_id user_id
          exclude_already_purchased exclude_already_in_cart mined
        if mined.isEmpty then xEmptyReturn w ext.redisOk cache_key product_id
        else
          let mined := xsellStep2c w.products brand category_id mined
          if mined.isEmpty then xEmptyReturn w ext.redisOk cache_key product_id
          else xsellFinish w ext cache_key product_id limit use_llm_rerank include_rationale mined

-- ===========================================================================
-- Verification predicates and concrete instances
-- ===========================================================================

/-- Whether a pipeline stage is a `$match` (filter) stage. -/
def stageIsMatch : Stage → Bool
  | .matchStage _ => true
  | _ => false

/-- Items are ordered by non-increasing score. -/
def SortedScores (l : List RecoItem) : Prop :=
  l.Pairwise (fun a b => b.score ≤ a.score)

/-- Search-result docs are ordered by non-increasing score (the ranked-output
contract of the document store's `$vectorSearch`/`$search`). -/
def SortedDocs (l : List SearchDoc) : Prop :=
  l.Pairwise (fun a b => b.score ≤ a.score)

/-- Every list stored in the recommendation result cache is sorted (an
invariant every `recommend` write preserves; see the C9 theorem). -/
def CacheSorted (cache : List (RecoCacheKey × List RecoItem)) : Prop :=
  ∀ p ∈ cache, SortedScores p.2

/-- The store oracle returns ranked (non-increasing score) docs. -/
def AggSorted (agg : List Stage → Outcome (List SearchDoc)) : Prop :=
  ∀ p docs, agg p = .ok docs → SortedDocs docs

/-- Every `RecoResult` stored in the cross-sell cache is well-formed:
sorted items and `count == len(items)`. -/
def XCacheOk (cache : List (XKey × RecoResult)) : Prop :=
  ∀ p ∈ cache, SortedScores p.2.items ∧ p.2.count = p.2.items.length

/-- A cross-sell result excludes the source product and the given user's
purchase/cart history. -/
def XsellExcluded (events : List Event) (pid uid : String) (res : RecoResult) : Prop :=
  ∀ it ∈ res.items,
    it.product_id ≠ pid
    ∧ it.product_id ∉ _get_user_purchased_product_ids events uid
    ∧ it.product_id ∉ _get_user_cart_product_ids events uid

/-- A `RagEnv` whose provider output never validates (every parse fails). -/
def ragEnvAlwaysFail : RagEnv :=
  { hydrate := .ok [], llm := fun _ => "", parse := fun _ => .error "Invalid LLM JSON",
    schema := "schema", user_json := "payload" }

-- ===========================================================================
-- THEOREMS
-- ===========================================================================

-- ===========================================================================
-- Sorting lemmas for `sortDescBy`
-- ===========================================================================

theorem insertDescBy_pairwise {α : Type} (f : α → ℚ) (x : α) (l : List α)
    (h : l.Pairwise (fun a b => f b ≤ f a)) :
    (insertDescBy f x l).Pairwise (fun a b => f b ≤ f a) := by
  induction l with
  | nil => simp [insertDescBy]
  | cons y ys ih =>
    rw [List.pairwise_cons] at h
    by_cases hle : f y ≤ f x
    · rw [insertDescBy, if_pos hle, List.pairwise_cons]
      refine ⟨?_, List.pairwise_cons.mpr h⟩
      intro a ha
      rw [List.mem_cons] at ha
      rcases ha with rfl | ha
      · exact hle
      · exact le_trans (h.1 a ha) hle
    · rw [insertDescBy, if_neg hle, List.pairwise_cons]
      refine ⟨?_, ih h.2⟩
      intro a ha
      have hperm : List.Perm (insertDescBy f x ys) (x :: ys) := by
        clear ih ha h
        induction ys with
        | nil => simp [insertDescBy]
        | cons z zs ihz =>
          by_cases hz : f z ≤ f x
          · rw [insertDescBy, if_pos hz]
          · rw [insertDescBy, if_neg hz]
            exact (ihz.cons z).trans (List.Perm.swap x z zs)
      have ha' : a ∈ x :: ys := hperm.mem_iff.mp ha
      rw [List.mem_cons] at ha'
      rcases ha' with rfl | ha'
      · exact le_of_not_le hle
      · exact h.1 a ha'

theorem insertDescBy_perm {α : Type} (f : α → ℚ) (x : α) (l : List α) :
    List.Perm (insertDescBy f x l) (x :: l) := by
  induction l with
  | nil => simp [insertDescBy]
  | cons y ys ih =>
    by_cases hy : f y ≤ f x
    · rw [insertDescBy, if_pos hy]
    · rw [insertDescBy, if_neg hy]
      exact (ih.cons y).trans (List.Perm.swap x y ys)

theorem sortDescBy_pairwise {α : Type} (f : α → ℚ) (l : List α) :
    (sortDescBy f l).Pairwise (fun a b => f b ≤ f a) := by
  induction l with
  | nil => simp [sortDescBy]
  | cons x xs ih => exact insertDescBy_pairwise f x _ ih

theorem sortDescBy_perm {α : Type} (f : α → ℚ) (l : List α) :
    List.Perm (sortDescBy f l) l := by
  induction l with
  | nil => simp [sortDescBy]
  | cons x xs ih =>
    exact (insertDescBy_perm f x (sortDescBy f xs)).trans (ih.cons x)

theorem mem_sortDescBy {α : Type} {f : α → ℚ} {l : List α} {a : α} :
    a ∈ sortDescBy f l ↔ a ∈ l :=
  (sortDescBy_perm f l).mem_iff


-- ===========================================================================
-- Generic supporting lemmas
-- ===========================================================================

theorem dedupFirstBy_subset {α β : Type} [DecidableEq β] (key : α → β)
    (seen : List β) (l : List α) : ∀ a ∈ dedupFirstBy key seen l, a ∈ l := by
  induction l generalizing seen with
  | nil => intro a ha; simp [dedupFirstBy] at ha
  | cons x xs ih =>
    intro a ha
    rw [dedupFirstBy] at ha
    by_cases hx : key x ∈ seen
    · rw [if_pos hx] at ha
      exact List.mem_cons_of_mem x (ih seen a ha)
    · rw [if_neg hx] at ha
      rw [List.mem_cons] at ha
      rcases ha with rfl | ha
      · exact List.mem_cons_self a xs
      · exact List.mem_cons_of_mem x (ih _ a ha)

theorem dedupFirst_subset {α : Type} [DecidableEq α] (l : List α) :
    ∀ a ∈ dedupFirst l, a ∈ l :=
  dedupFirstBy_subset id [] l

theorem waitPollCount_le (fuel : Nat) (existsAt : Nat → Bool) (i : Nat) :
    RedisLock.waitPollCount fuel existsAt i ≤ fuel := by
  induction fuel generalizing i with
  | zero => simp [RedisLock.waitPollCount]
  | succ f ih =>
    rw [RedisLock.waitPollCount]
    by_cases h : existsAt i
    · rw [if_pos h]; have := ih (i + 1); omega
    · rw [if_neg h]; omega

theorem RedisLock.lockKeyOf_ne (k : String) : RedisLock.lockKeyOf k ≠ k := by
  intro h
  have hl := congrArg String.length h
  rw [RedisLock.lockKeyOf, String.length_append] at hl
  have h5 : ("lock:" : String).length = 5 := rfl
  omega

-- ===========================================================================
-- C4: empty filter clauses in the two retrieval query paths
-- ===========================================================================

/-- C4 (counterexample): with an empty effective filter set, the text-fallback
query built by `retrieve_candidates` carries a PRESENT `filter` key whose
value is the empty list (`some []`), not an omitted clause (`none`); likewise
the `$search` compound of `text_search_fallback`.  This falsifies "the filter
field is omitted entirely from both the vector-search query and the
text-fallback query". -/
theorem c4_counterexample :
    (fallback_search_query "jeans levi" none).filter = some []
    ∧ (text_search_fallback_compound "jeans levi" none none).filter = some []
    ∧ some ([] : List FilterClause) ≠ (none : Option (List FilterClause)) := by
  refine ⟨rfl, rfl, ?_⟩
  decide

/-- C4 (amended): when the effective filter set is empty, the VECTOR query
path omits the filter (`$match`) stage entirely; the TEXT paths instead always
submit a present `filter` key, which is the empty list when there are no
clauses (`"filter": fallback_filters` in `retrieve_candidates` and
`"filter": [filt] if filt else []` in `text_search_fallback`). -/
theorem c4_amended :
    (∀ (qv : List ℚ) (limit nc : Nat) (path : String) (mustf : Option (List FilterClause)),
       mustf = none ∨ mustf = some [] →
       ∀ st ∈ vector_search_pipeline qv limit nc none mustf path, stageIsMatch st = false)
    ∧ (∀ (tq : String) (mustf : Option (List FilterClause)),
       (fallback_search_query tq mustf).filter = some (mustf.getD []))
    ∧ (∀ tq : String, (text_search_fallback_compound tq none none).filter = some []) := by
  refine ⟨?_, ?_, ?_⟩
  · intro qv limit nc path mustf hm st hst
    rcases hm with rfl | rfl <;>
    · simp only [vector_search_pipeline, vector_search_filt, List.filterMap_nil,
        List.append_nil, List.nil_append, List.cons_append, List.mem_cons,
        List.mem_singleton, List.not_mem_nil, or_false] at hst
      rcases hst with rfl | rfl | rfl <;> rfl
  · intro tq mustf
    cases mustf <;> rfl
  · intro tq; rfl

/-- C4 (witness): the amended vector-path statement applied at a concrete
empty-filter request. -/
theorem c4_witness :
    ((none : Option (List FilterClause)) = none ∨ (none : Option (List FilterClause)) = some [])
    ∧ (∀ st ∈ vector_search_pipeline [1] 30 300 none none "vectors.sim.vector",
        stageIsMatch st = false) :=
  ⟨Or.inl rfl, c4_amended.1 [1] 30 300 "vectors.sim.vector" none (Or.inl rfl)⟩

-- ===========================================================================
-- C8: the dogpile wait path of get_or_create_embedding
-- ===========================================================================

/-- Concrete environment for C8: both cache and store miss, the lock is held
by someone else for the whole wait. -/
def c8settings : ESettings := { vector_lock_ttl := 2 }

def c8env : EmbEnv :=
  { modelHash := fun _ => "h", cacheGet1 := none, dbVec := none,
    lockAcquired := false, lockExistsAt := fun _ => true,
    cacheGetAfterWait := none, cacheGet2 := none, product := none,
    provider := fun _ => [] }

def c8out : EmbOut := get_or_create_embedding c8settings c8env "p1" "sim"

/-- C8 (counterexample): on the failed-acquisition path the wait loop polls
the existence of the LOCK key (`"lock:" + cache_key`), never of the cache key
itself — the claim's "polls the cache key's existence" is false. -/
theorem c8_counterexample :
    c8out.polledKeys = List.replicate 20 "lock:vec:h:p1:sim"
    ∧ "vec:h:p1:sim" ∉ c8out.polledKeys
    ∧ c8out.polledKeys ≠ [] := by
  refine ⟨by decide, by decide, by decide⟩

/-- The failed-acquisition branch of `get_or_create_embedding`, computed. -/
theorem get_or_create_embedding_waitBranch (s : ESettings) (env : EmbEnv)
    (product_id kind : String) (udb wdb : Bool)
    (h1 : env.cacheGet1 = none) (h2 : env.dbVec = none) (h3 : env.lockAcquired = false) :
    get_or_create_embedding s env product_id kind udb wdb =
      { result := env.cacheGetAfterWait, embedCalls := 0,
        polledKeys := List.replicate
          (RedisLock.waitPollCount (s.vector_lock_ttl * 10) env.lockExistsAt 0)
          (RedisLock.lockKeyOf (VectorCacheRepo.key env.modelHash
            (product_id ++ ":" ++ kind) s.OPENAI_EMBEDDING_MODEL)),
        sleepsSeconds := List.replicate
          (RedisLock.waitSleepCount (s.vector_lock_ttl * 10) env.lockExistsAt 0) (1 / 10 : ℚ),
        releasedLock := false, cacheWrites := [], dbWrites := [] } := by
  unfold get_or_create_embedding
  rw [h1, h2, h3]
  cases udb <;> rfl

/-- C8 (amended): when lock acquisition fails (after a cache and store miss),
the call performs no provider invocation, polls only the LOCK key's existence
(at fixed 0.1-second intervals, at most `vector_lock_ttl * 10` polls, i.e. for
at most the lock TTL), then returns whatever the cache holds — possibly
nothing — and writes nothing; and the lock key it polls is distinct from the
cache key. -/
theorem c8_amended :
    ∀ (s : ESettings) (env : EmbEnv) (product_id kind : String) (udb wdb : Bool),
    env.cacheGet1 = none → env.dbVec = none → env.lockAcquired = false →
    (get_or_create_embedding s env product_id kind udb wdb).embedCalls = 0
    ∧ (∀ k ∈ (get_or_create_embedding s env product_id kind udb wdb).polledKeys,
        k = RedisLock.lockKeyOf (VectorCacheRepo.key env.modelHash
              (product_id ++ ":" ++ kind) s.OPENAI_EMBEDDING_MODEL))
    ∧ (get_or_create_embedding s env product_id kind udb wdb).polledKeys.length
        ≤ s.vector_lock_ttl * 10
    ∧ (∀ d ∈ (get_or_create_embedding s env product_id kind udb wdb).sleepsSeconds,
        d = (1 / 10 : ℚ))
    ∧ (get_or_create_embedding s env product_id kind udb wdb).result = env.cacheGetAfterWait
    ∧ (get_or_create_embedding s env product_id kind udb wdb).cacheWrites = []
    ∧ RedisLock.lockKeyOf (VectorCacheRepo.key env.modelHash
          (product_id ++ ":" ++ kind) s.OPENAI_EMBEDDING_MODEL)
        ≠ VectorCacheRepo.key env.modelHash (product_id ++ ":" ++ kind)
            s.OPENAI_EMBEDDING_MODEL := by
  intro s env product_id kind udb wdb h1 h2 h3
  rw [get_or_create_embedding_waitBranch s env product_id kind udb wdb h1 h2 h3]
  refine ⟨rfl, ?_, ?_, ?_, rfl, rfl, RedisLock.lockKeyOf_ne _⟩
  · intro k hk
    exact List.eq_of_mem_replicate hk
  · rw [List.length_replicate]
    exact waitPollCount_le _ _ _
  · intro d hd
    exact List.eq_of_mem_replicate hd

/-- C8 (witness): the amended statement applied to the concrete environment. -/
theorem c8_witness :
    (c8env.cacheGet1 = none ∧ c8env.dbVec = none ∧ c8env.lockAcquired = false)
    ∧ ((get_or_create_embedding c8settings c8env "p1" "sim" true false).embedCalls = 0
       ∧ (∀ k ∈ (get_or_create_embedding c8settings c8env "p1" "sim" true false).polledKeys,
           k = RedisLock.lockKeyOf (VectorCacheRepo.key c8env.modelHash ("p1" ++ ":" ++ "sim")
                 c8settings.OPENAI_EMBEDDING_MODEL))
       ∧ (get_or_create_embedding c8settings c8env "p1" "sim" true false).polledKeys.length
           ≤ c8settings.vector_lock_ttl * 10
       ∧ (∀ d ∈ (get_or_create_embedding c8settings c8env "p1" "sim" true false).sleepsSeconds,
           d = (1 / 10 : ℚ))
       ∧ (get_or_create_embedding c8settings c8env "p1" "sim" true false).result = c8env.cacheGetAfterWait
       ∧ (get_or_create_embedding c8settings c8env "p1" "sim" true false).cacheWrites = []
       ∧ RedisLock.lockKeyOf (VectorCacheRepo.key c8env.modelHash ("p1" ++ ":" ++ "sim")
             c8settings.OPENAI_EMBEDDING_MODEL)
           ≠ VectorCacheRepo.key c8env.modelHash ("p1" ++ ":" ++ "sim")
               c8settings.OPENAI_EMBEDDING_MODEL) :=
  ⟨⟨rfl, rfl, rfl⟩, c8_amended c8settings c8env "p1" "sim" true false rfl rfl rfl⟩

-- ===========================================================================
-- lookupLast lemmas (Python dict-from-pairs semantics)
-- ===========================================================================

theorem lookupLast_cons {α : Type} (a : String × α) (l : List (String × α)) (k : String) :
    lookupLast (a :: l) k =
      match lookupLast l k with
      | some v => some v
      | none => if a.1 = k then some a.2 else none := by
  unfold lookupLast
  rw [List.reverse_cons, List.find?_append]
  cases h : List.find? (fun p => decide (p.1 = k)) l.reverse with
  | none =>
    simp only [h, Option.map_none, Option.or]
    by_cases hk : a.1 = k
    · simp [List.find?, hk]
    · simp [List.find?, hk]
  | some v =>
    simp [h, Option.or]

theorem lookupLast_eq_none {α : Type} {l : List (String × α)} {k : String}
    (h : k ∉ l.map Prod.fst) : lookupLast l k = none := by
  induction l with
  | nil => rfl
  | cons a l ih =>
    rw [List.map_cons, List.mem_cons, not_or] at h
    rw [lookupLast_cons, ih h.2]
    simp only []
    rw [if_neg (fun hh => h.1 hh.symm)]

theorem lookupLast_eq_of_nodup {α : Type} {l : List (String × α)} {k : String} {v : α}
    (hmem : (k, v) ∈ l) (hnd : (l.map Prod.fst).Nodup) : lookupLast l k = some v := by
  induction l with
  | nil => cases hmem
  | cons a l ih =>
    rw [List.map_cons, List.nodup_cons] at hnd
    rw [lookupLast_cons]
    rcases List.mem_cons.mp hmem with heq | hmem'
    · cases heq
      rw [lookupLast_eq_none hnd.1]
      simp
    · rw [ih hmem' hnd.2]

-- ===========================================================================
-- C1: blending of model-omitted candidates
-- ===========================================================================

/-- Oracles for the C1 counterexample run: both candidates hydrate from the
store (so both are sent to the model), but the validated model output scores
only "a". -/
def c1env : RagEnv :=
  { hydrate := .ok ["a", "b"], llm := fun _ => "resp",
    parse := fun _ => .ok [{ product_id := "a", score := 4/5 }],
    schema := "schema", user_json := "payload" }

def c1candidates : List RecoItem :=
  [{ product_id := "a", score := 9/10 }, { product_id := "b", score := 2/5 }]

/-- C1 (counterexample): candidate "b" is sent to the model (it hydrates) and
omitted from the model output, yet its blended score is
`α·0 + (1-α)·0.4 = 0.1`, NOT its retrieval score `0.4` — the claim's "retains
its original retrieval score" (and "not alpha*0 + (1-alpha)*retrievalScore")
is exactly what the code does not do. -/
theorem c1_counterexample :
    rag_answer c1env KIND_XSELL false c1candidates =
      .ok [{ product_id := "a", score := 33/40 }, { product_id := "b", score := 1/10 }]
    ∧ (1/10 : ℚ) ≠ 2/5
    ∧ (1/10 : ℚ) = RERANK_ALPHA * 0 + (1 - RERANK_ALPHA) * (2/5) := by
  refine ⟨?_, by norm_num, by norm_num [RERANK_ALPHA]⟩
  simp +decide only [rag_answer, rag_after_prompts, rag_success, rag_filtered, c1env, c1candidates, KIND_XSELL, _rerank_with_schema_retry,
    rerankLoop, _parse_and_validate, dedupFirstBy, rag_blended, lookupLast, sortDescBy,
    insertDescBy, _min_score_threshold, MIN_SCORE_RETRIEVAL_XSELL, MIN_SCORE_RETRIEVAL_SIM,
    MIN_SCORE_RETRIEVAL_COMP, MIN_SCORE_RETRIEVAL_UPSELL, pyStrIn, listContainsInfix,
    user_task, system_prompt, KIND_SIMILAR, KIND_SIMILAR_RICH, KIND_COMPLEMENTARY,
    KIND_COMPLEMENTARY_RICH, KIND_UPSELL, RERANK_ALPHA, Except.map, List.isEmpty,
    List.map, List.reverse, List.find?, List.filter, List.all, List.foldr, List.mem_cons,
    Option.map, Option.getD, List.range, List.any]
  norm_num

/-- C1 (amended): in the blending block of `rag_answer`, a candidate that
appears in the model output with score `s` is blended to
`α·s + (1-α)·retrievalScore` (α = 0.75); a candidate ABSENT from the model
output is blended to `α·0 + (1-α)·retrievalScore` (the `.get(pid, 0.0)`
default), NOT to its bare retrieval score; only a candidate missing from the
store hydration (hence never shown to the model) gets an additional entry
carrying its bare retrieval score. -/
theorem c1_amended :
    ∀ (candidates : List RecoItem) (foundIds : List String) (ranked : List RankItem)
      (c : RecoItem), c ∈ candidates →
      (candidates.map (fun x => x.product_id)).Nodup →
      ((∀ s, lookupLast (ranked.map (fun r => (r.product_id, r.score))) c.product_id = some s →
          ∃ rat, (c.product_id, RERANK_ALPHA * s + (1 - RERANK_ALPHA) * c.score, rat)
            ∈ rag_blended candidates foundIds ranked)
       ∧ (lookupLast (ranked.map (fun r => (r.product_id, r.score))) c.product_id = none →
          ∃ rat, (c.product_id, RERANK_ALPHA * 0 + (1 - RERANK_ALPHA) * c.score, rat)
            ∈ rag_blended candidates foundIds ranked)
       ∧ (foundIds.contains c.product_id = false →
          (c.product_id, c.score, some "") ∈ rag_blended candidates foundIds ranked)) := by
  intro candidates foundIds ranked c hc hnd
  have hinit : lookupLast (candidates.map (fun x => (x.product_id, x.score))) c.product_id
      = some c.score := by
    exact @lookupLast_eq_of_nodup ℚ (candidates.map (fun x => (x.product_id, x.score)))
      c.product_id c.score (List.mem_map_of_mem _ hc)
      (by rw [List.map_map]; exact hnd)
  refine ⟨?_, ?_, ?_⟩
  · intro s hs
    refine ⟨(lookupLast (ranked.map (fun r => (r.product_id, r.rationale))) c.product_id).getD
             (some ""), ?_⟩
    simp only [rag_blended]
    apply List.mem_append_left
    rw [List.mem_map]
    exact ⟨c.product_id, List.mem_map_of_mem _ hc, by rw [hs, hinit]; rfl⟩
  · intro hs
    refine ⟨(lookupLast (ranked.map (fun r => (r.product_id, r.rationale))) c.product_id).getD
             (some ""), ?_⟩
    simp only [rag_blended]
    apply List.mem_append_left
    rw [List.mem_map]
    exact ⟨c.product_id, List.mem_map_of_mem _ hc, by rw [hs, hinit]; rfl⟩
  · intro hf
    simp only [rag_blended]
    apply List.mem_append_right
    rw [List.mem_map]
    refine ⟨c.product_id, ?_, by rw [hinit]; rfl⟩
    rw [List.mem_filter]
    exact ⟨List.mem_map_of_mem _ hc, by rw [hf]; rfl⟩

def c1ranked : List RankItem := [{ product_id := "a", score := 4/5 }]

def c1item_b : RecoItem := { product_id := "b", score := 2/5 }

/-- C1 (witness): the amended claim applied at a concrete input — "b" is not
hydrated, so it gets the extra entry with its bare retrieval score. -/
theorem c1_witness :
    (c1item_b ∈ c1candidates
     ∧ (c1candidates.map (fun x => x.product_id)).Nodup
     ∧ (["a"] : List String).contains c1item_b.product_id = false)
    ∧ (c1item_b.product_id, c1item_b.score, some "")
        ∈ rag_blended c1candidates ["a"] c1ranked :=
  ⟨⟨by simp +decide [c1item_b, c1candidates], by simp +decide [c1candidates], by decide⟩,
   (c1_amended c1candidates ["a"] c1ranked c1item_b
      (by simp +decide [c1item_b, c1candidates])
      (by simp +decide [c1candidates])).2.2 (by decide)⟩

-- ===========================================================================
-- C5: schema retry budget, retry messages, success and fail-open
-- ===========================================================================

theorem parse_and_validate_ok {parse : String → Except String (List RankItem)}
    {x : String} {r : List RankItem} (h : _parse_and_validate parse x = .ok r) :
    ∃ items, parse x = .ok items ∧ r = dedupFirstBy (fun i => i.product_id) [] items := by
  unfold _parse_and_validate at h
  cases hp : parse x with
  | ok items =>
    rw [hp] at h
    exact ⟨items, rfl, (Except.ok.inj h).symm⟩
  | error e =>
    rw [hp] at h
    cases h

theorem rerankLoop_trace_length (llm : List Msg → String)
    (parse : String → Except String (List RankItem)) (schema : String)
    (n : Nat) (msgs : List Msg) :
    (rerankLoop llm parse schema n msgs).1.length ≤ n + 1 := by
  induction n generalizing msgs with
  | zero => simp [rerankLoop]
  | succ r ih =>
    rw [rerankLoop]
    split
    · simp
    · rename_i e heq
      simp only [List.length_cons]
      have := ih (msgs ++ retry_messages e schema)
      omega

theorem rerankLoop_trace_head (llm : List Msg → String)
    (parse : String → Except String (List RankItem)) (schema : String)
    (n : Nat) (msgs : List Msg) :
    (rerankLoop llm parse schema n msgs).1.head? = some msgs := by
  cases n with
  | zero => rfl
  | succ r =>
    rw [rerankLoop]
    split <;> rfl

theorem rerankLoop_chain (llm : List Msg → String)
    (parse : String → Except String (List RankItem)) (schema : String)
    (n : Nat) (msgs : List Msg) :
    (rerankLoop llm parse schema n msgs).1.Chain'
      (fun m₁ m₂ => ∃ e, _parse_and_validate parse (llm m₁) = .error e
                     ∧ m₂ = m₁ ++ retry_messages e schema) := by
  induction n generalizing msgs with
  | zero => simp [rerankLoop]
  | succ r ih =>
    rw [rerankLoop]
    split
    · simp
    · rename_i e heq
      have hh := rerankLoop_trace_head llm parse schema r (msgs ++ retry_messages e schema)
      have hch := ih (msgs ++ retry_messages e schema)
      simp only []
      cases ht : (rerankLoop llm parse schema r (msgs ++ retry_messages e schema)).1 with
      | nil => rw [ht] at hh; cases hh
      | cons nx rest =>
        rw [ht] at hh hch
        rw [List.chain'_cons]
        refine ⟨⟨e, heq, ?_⟩, hch⟩
        simpa using hh

theorem rerankLoop_ok (llm : List Msg → String)
    (parse : String → Except String (List RankItem)) (schema : String)
    (n : Nat) (msgs : List Msg) (r : List RankItem)
    (h : (rerankLoop llm parse schema n msgs).2 = .ok r) :
    ∃ last, (rerankLoop llm parse schema n msgs).1.getLast? = some last
      ∧ ∃ items, parse (llm last) = .ok items
        ∧ r = dedupFirstBy (fun i => i.product_id) [] items := by
  induction n generalizing msgs with
  | zero =>
    rw [rerankLoop] at h ⊢
    exact ⟨msgs, rfl, parse_and_validate_ok h⟩
  | succ q ih =>
    rw [rerankLoop] at h ⊢
    revert h
    split
    · rename_i items heq
      intro h
      refine ⟨msgs, rfl, ?_⟩
      cases h
      exact parse_and_validate_ok heq
    · rename_i e heq
      intro h
      simp only [] at h ⊢
      obtain ⟨last, hlast, items, hp, hr⟩ := ih (msgs ++ retry_messages e schema) h
      refine ⟨last, ?_, items, hp, hr⟩
      rw [List.getLast?_cons]
      cases ht : (rerankLoop llm parse schema q (msgs ++ retry_messages e schema)).1 with
      | nil =>
        have hh := rerankLoop_trace_head llm parse schema q (msgs ++ retry_messages e schema)
        rw [ht] at hh; cases hh
      | cons nx rest =>
        rw [ht] at hlast
        simp [ht, hlast]

/-- C5: the rerank retry and fail-open behaviour.
(i) with the default budget (`max_retries = 2`) at most 3 provider attempts
are made, starting from the given messages; (ii) each retry's message list is
the previous one plus the corrective system message and the schema-carrying
user message; (iii) if an attempt within the budget succeeds, the retry's
result is that attempt's parsed results deduplicated first-occurrence-wins;
(iv) if every attempt fails validation, `rag_answer` returns the original
candidate list unchanged (fail-open). -/
theorem c5_retry_and_fail_open :
    (∀ (llm : List Msg → String) (parse : String → Except String (List RankItem))
       (schema : String) (msgs : List Msg),
       (_rerank_with_schema_retry llm parse schema msgs).1.length ≤ 3
       ∧ (_rerank_with_schema_retry llm parse schema msgs).1.head? = some msgs)
    ∧ (∀ (llm : List Msg → String) (parse : String → Except String (List RankItem))
         (schema : String) (msgs : List Msg),
       (_rerank_with_schema_retry llm parse schema msgs).1.Chain'
         (fun m₁ m₂ => ∃ e, _parse_and_validate parse (llm m₁) = .error e
                        ∧ m₂ = m₁ ++ retry_messages e schema))
    ∧ (∀ (llm : List Msg → String) (parse : String → Except String (List RankItem))
         (schema : String) (msgs : List Msg) (r : List RankItem),
       (_rerank_with_schema_retry llm parse schema msgs).2 = .ok r →
       ∃ last, (_rerank_with_schema_retry llm parse schema msgs).1.getLast? = some last
         ∧ ∃ items, parse (llm last) = .ok items
           ∧ r = dedupFirstBy (fun i => i.product_id) [] items)
    ∧ (∀ (env : RagEnv) (kind : String) (incl : Bool) (candidates : List RecoItem)
         (foundIds : List String) (task sys e : String),
       env.hydrate = .ok foundIds →
       user_task kind incl = .ok task →
       system_prompt kind = .ok sys →
       (_rerank_with_schema_retry env.llm env.parse env.schema
          [⟨"system", sys⟩, ⟨"user", env.user_json⟩]).2 = .error e →
       rag_answer env kind incl candidates = .ok candidates) := by
  refine ⟨?_, ?_, ?_, ?_⟩
  · intro llm parse schema msgs
    exact ⟨rerankLoop_trace_length llm parse schema 2 msgs,
           rerankLoop_trace_head llm parse schema 2 msgs⟩
  · intro llm parse schema msgs
    exact rerankLoop_chain llm parse schema 2 msgs
  · intro llm parse schema msgs r h
    exact rerankLoop_ok llm parse schema 2 msgs r h
  · intro env kind incl candidates foundIds task sys e hh ht hsys hr
    unfold rag_answer
    by_cases hc : candidates.isEmpty
    · rw [hc]; rfl
    · rw [Bool.eq_false_iff.mpr hc, hh, ht, hsys]
      show rag_after_prompts env kind incl candidates foundIds sys = _
      unfold rag_after_prompts
      rw [hr]

/-- C5 (witness): a provider whose output never validates leaves the original
candidate order unchanged, via the fail-open conjunct of the theorem. -/
theorem c5_witness :
    (ragEnvAlwaysFail.hydrate = .ok []
     ∧ user_task KIND_SIMILAR false = .ok "rank similarity task"
     ∧ system_prompt KIND_SIMILAR
         = .ok "You are a ranking model for PRODUCT SUBSTITUTABILITY (similar products). Return strict JSON only."
     ∧ (_rerank_with_schema_retry ragEnvAlwaysFail.llm ragEnvAlwaysFail.parse
          ragEnvAlwaysFail.schema
          [⟨"system", "You are a ranking model for PRODUCT SUBSTITUTABILITY (similar products). Return strict JSON only."⟩,
           ⟨"user", ragEnvAlwaysFail.user_json⟩]).2 = .error "Invalid LLM JSON")
    ∧ rag_answer ragEnvAlwaysFail KIND_SIMILAR false
        [{ product_id := "x", score := 1 }, { product_id := "y", score := 0 }]
      = .ok [{ product_id := "x", score := 1 }, { product_id := "y", score := 0 }] :=
  ⟨⟨rfl, rfl, rfl, by decide⟩,
   c5_retry_and_fail_open.2.2.2 ragEnvAlwaysFail KIND_SIMILAR false
     [{ product_id := "x", score := 1 }, { product_id := "y", score := 0 }]
     [] "rank similarity task"
     "You are a ranking model for PRODUCT SUBSTITUTABILITY (similar products). Return strict JSON only."
     "Invalid LLM JSON" rfl rfl rfl (by decide)⟩

-- ===========================================================================
-- rag_answer branch-computation helper lemmas
-- ===========================================================================

theorem rag_answer_empty_eq (env : RagEnv) (kind : String) (incl : Bool)
    (candidates : List RecoItem) (hc : candidates.isEmpty = true) :
    rag_answer env kind incl candidates = .ok candidates := by
  unfold rag_answer
  rw [hc]
  rfl

theorem rag_answer_success_eq (env : RagEnv) (kind : String) (incl : Bool)
    (candidates : List RecoItem) (foundIds : List String) (task sys : String)
    (ranked : List RankItem)
    (hc : candidates.isEmpty = false)
    (hh : env.hydrate = .ok foundIds)
    (hu : user_task kind incl = .ok task)
    (hsys : system_prompt kind = .ok sys)
    (hok : (_rerank_with_schema_retry env.llm env.parse env.schema
             [⟨"system", sys⟩, ⟨"user", env.user_json⟩]).2 = .ok ranked) :
    rag_answer env kind incl candidates = rag_success kind incl candidates foundIds ranked := by
  unfold rag_answer
  rw [hc, hh, hu, hsys]
  show rag_after_prompts env kind incl candidates foundIds sys = _
  unfold rag_after_prompts
  rw [hok]

theorem rag_answer_failopen_eq (env : RagEnv) (kind : String) (incl : Bool)
    (candidates : List RecoItem) (foundIds : List String) (task sys e : String)
    (hh : env.hydrate = .ok foundIds)
    (hu : user_task kind incl = .ok task)
    (hsys : system_prompt kind = .ok sys)
    (herr : (_rerank_with_schema_retry env.llm env.parse env.schema
              [⟨"system", sys⟩, ⟨"user", env.user_json⟩]).2 = .error e) :
    rag_answer env kind incl candidates = .ok candidates := by
  unfold rag_answer
  by_cases hc : candidates.isEmpty
  · rw [hc]; rfl
  · rw [Bool.eq_false_iff.mpr hc, hh, hu, hsys]
    show rag_after_prompts env kind incl candidates foundIds sys = _
    unfold rag_after_prompts
    rw [herr]

-- ===========================================================================
-- C6: per-kind threshold filtering on a successful rerank
-- ===========================================================================

/-- C6: on a successful rerank (the schema retry returned validated results),
every item of the rerank output — and hence of any truncation of it — has
blended score ≥ the kind's minimum threshold, i.e. items strictly below the
threshold are dropped; and the thresholds are 0.5 for sim/sim_rich and
comp/comp_rich, 0 for xsell and upsell, and 0 for every other kind. -/
theorem c6_threshold_filter :
    (∀ (env : RagEnv) (kind : String) (incl : Bool) (candidates out : List RecoItem)
       (sys : String) (ranked : List RankItem) (n : Nat),
       system_prompt kind = .ok sys →
       (_rerank_with_schema_retry env.llm env.parse env.schema
          [⟨"system", sys⟩, ⟨"user", env.user_json⟩]).2 = .ok ranked →
       rag_answer env kind incl candidates = .ok out →
       ∀ item ∈ out.take n, _min_score_threshold kind ≤ item.score)
    ∧ _min_score_threshold KIND_SIMILAR = 1/2
    ∧ _min_score_threshold KIND_SIMILAR_RICH = 1/2
    ∧ _min_score_threshold KIND_COMPLEMENTARY = 1/2
    ∧ _min_score_threshold KIND_COMPLEMENTARY_RICH = 1/2
    ∧ _min_score_threshold KIND_XSELL = 0
    ∧ _min_score_threshold KIND_UPSELL = 0
    ∧ (∀ kind : String,
        ¬(kind = KIND_SIMILAR ∨ kind = KIND_SIMILAR_RICH) →
        ¬(kind = KIND_COMPLEMENTARY ∨ kind = KIND_COMPLEMENTARY_RICH) →
        _min_score_threshold kind = 0) := by
  have hthr : ∀ kind : String,
      ¬(kind = KIND_SIMILAR ∨ kind = KIND_SIMILAR_RICH) →
      ¬(kind = KIND_COMPLEMENTARY ∨ kind = KIND_COMPLEMENTARY_RICH) →
      _min_score_threshold kind = 0 := by
    intro kind h1 h2
    unfold _min_score_threshold
    rw [if_neg h1, if_neg h2]
    split
    · rfl
    · split <;> rfl
  refine ⟨?_, by rfl, by rfl, by rfl, by rfl,
          by rw [hthr KIND_XSELL (by decide) (by decide)],
          by rw [hthr KIND_UPSELL (by decide) (by decide)], hthr⟩
  · intro env kind incl candidates out sys ranked n hsys hok hout item hitem
    have hsub : item ∈ out := List.take_subset n out hitem
    by_cases hc : candidates.isEmpty
    · rw [rag_answer_empty_eq env kind incl candidates hc] at hout
      cases hout
      rw [List.isEmpty_iff] at hc
      rw [hc] at hsub
      cases hsub
    · cases hh : env.hydrate with
      | err e =>
        unfold rag_answer at hout
        rw [if_neg hc, hh] at hout
        cases hout
      | ok foundIds =>
        cases hu : user_task kind incl with
        | error e =>
          unfold rag_answer at hout
          rw [if_neg hc, hh, hu] at hout
          cases hout
        | ok task =>
          rw [rag_answer_success_eq env kind incl candidates foundIds task sys ranked
               (Bool.eq_false_iff.mpr hc) hh hu hsys hok] at hout
          revert hout
          unfold rag_success
          split
          · intro hout
            cases hout
            cases incl <;>
            · simp only [Bool.false_eq_true, if_true, if_false, reduceIte] at hsub
              rw [List.mem_map] at hsub
              obtain ⟨t, ht, hproj⟩ := hsub
              unfold rag_filtered at ht
              rw [List.mem_filter] at ht
              have hsc := of_decide_eq_true ht.2
              rw [← hproj]
              exact hsc
          · intro hout
            cases hout

/-- Oracles and candidates for the C6 witness: the model returns only "a",
so "b" blends to 0.125 < 0.5 and is dropped for kind "sim". -/
def c6env : RagEnv :=
  { hydrate := .ok ["a", "b"], llm := fun _ => "resp",
    parse := fun _ => .ok [{ product_id := "a", score := 1 }],
    schema := "schema", user_json := "payload" }

def c6candidates : List RecoItem :=
  [{ product_id := "a", score := 1/2 }, { product_id := "b", score := 1/2 }]

/-- C6 (witness): the theorem applied to a concrete successful rerank. -/
theorem c6_witness :
    (system_prompt KIND_SIMILAR
       = .ok "You are a ranking model for PRODUCT SUBSTITUTABILITY (similar products). Return strict JSON only."
     ∧ (_rerank_with_schema_retry c6env.llm c6env.parse c6env.schema
          [⟨"system", "You are a ranking model for PRODUCT SUBSTITUTABILITY (similar products). Return strict JSON only."⟩,
           ⟨"user", c6env.user_json⟩]).2 = .ok [{ product_id := "a", score := 1 }]
     ∧ rag_answer c6env KIND_SIMILAR false c6candidates
         = .ok [{ product_id := "a", score := 7/8 }])
    ∧ (∀ item ∈ ([{ product_id := "a", score := 7/8 }] : List RecoItem).take FINAL_K,
        _min_score_threshold KIND_SIMILAR ≤ item.score) :=
  have hrag : rag_answer c6env KIND_SIMILAR false c6candidates
      = .ok [{ product_id := "a", score := 7/8 }] := by
    simp +decide only [rag_answer, rag_after_prompts, rag_success, rag_filtered, c6env, c6candidates, KIND_SIMILAR, _rerank_with_schema_retry,
      rerankLoop, _parse_and_validate, dedupFirstBy, rag_blended, lookupLast, sortDescBy,
      insertDescBy, _min_score_threshold, MIN_SCORE_RETRIEVAL_XSELL, MIN_SCORE_RETRIEVAL_SIM,
      MIN_SCORE_RETRIEVAL_COMP, MIN_SCORE_RETRIEVAL_UPSELL, pyStrIn, listContainsInfix,
      user_task, system_prompt, KIND_SIMILAR_RICH, KIND_COMPLEMENTARY,
      KIND_COMPLEMENTARY_RICH, KIND_UPSELL, KIND_XSELL, RERANK_ALPHA, Except.map, List.isEmpty,
      List.map, List.reverse, List.find?, List.filter, List.all, List.foldr, List.mem_cons,
      Option.map, Option.getD, List.range, List.any]
    norm_num
  ⟨⟨rfl, by decide, hrag⟩,
   c6_threshold_filter.1 c6env KIND_SIMILAR false c6candidates
     [{ product_id := "a", score := 7/8 }]
     "You are a ranking model for PRODUCT SUBSTITUTABILITY (similar products). Return strict JSON only."
     [{ product_id := "a", score := 1 }] FINAL_K rfl (by decide) hrag⟩

-- ===========================================================================
-- C2: negative caching of missing source entities
-- ===========================================================================

def c2settings : PSettings := {}

def c2req : Req := { kind := KIND_SIMILAR, version := "v1", product_id := "p1" }

/-- Oracles for C2: the store holds no products; retrieval/rag are never
reached. -/
def c2ext : PExt := { embed := .ok none, agg := fun _ => .ok [], rag := ragEnvAlwaysFail }

def c2w0 : World := {}

def c2key : RecoCacheKey := build_cache_key c2settings c2req true

def c2w1 : World := { cache := [(c2key, [])], products := [], lookups := 1 }

def c2w2 : World := { cache := [(c2key, []), (c2key, [])], products := [], lookups := 2 }

/-- C2 (code bug, evaluated at the failing input): for a nonexistent product,
the first `recommend` call DOES write the empty list under the request's
cache key and returns empty — but the second identical call is NOT served
from that cache entry: the hit test `if cached := await reco_cache.get(...)`
is Python truthiness and the cached empty list is falsy, so the pipeline runs
again and performs a second `ProductRepo.get_by_product_id` lookup.  Across
the two consecutive calls the source-entity lookup count is 2, not 1; the
negative-cache write is dead and the code defeats its own stated purpose
("cache an empty list briefly to prevent dogpiles"). -/
theorem c2_negative_cache_bug :
    recommend c2settings c2req c2ext c2w0
      = .ok ({ source_product_id := "p1", items := [], count := 0 }, c2w1)
    ∧ RecoProductsCacheRepo.get c2w1.cache c2key = some []
    ∧ recommend c2settings c2req c2ext c2w1
      = .ok ({ source_product_id := "p1", items := [], count := 0 }, c2w2)
    ∧ c2w2.lookups = 2
    ∧ c2w2.lookups ≠ 1 :=
  ⟨by decide, by decide, by decide, by decide, by decide⟩

-- ===========================================================================
-- C3: cache key when rerank was requested but the model call failed
-- ===========================================================================

def c3settings : PSettings := {}

def c3prod : Product := { product_id := "p1", name := "P one" }

/-- Oracles for C3: retrieval returns one candidate; every completion-provider
response fails validation, so the rerank model call ultimately fails. -/
def c3rag : RagEnv :=
  { hydrate := .ok ["a"], llm := fun _ => "resp", parse := fun _ => .error "Invalid LLM JSON",
    schema := "schema", user_json := "payload" }

def c3ext : PExt :=
  { embed := .ok none, agg := fun _ => .ok [{ product_id := "a", score := 1 }], rag := c3rag }

def c3w0 : World := { cache := [], products := [c3prod], lookups := 0 }

def c3req : Req := { kind := KIND_SIMILAR, version := "v1", product_id := "p1" }

def c3keyT : RecoCacheKey := build_cache_key c3settings c3req true

def c3keyF : RecoCacheKey := build_cache_key c3settings c3req false

/-- C3 (code bug, evaluated at the failing input): rerank is requested
(`use_llm = true`) and the model call ultimately fails (every attempt fails
validation), yet `rag_answer` catches the failure internally and fails open,
so `recommend` sets `llm_applied = True` and writes the UN-reranked output
under the rerank=true key; the non-reranked key stays empty and the cached
non-reranked fallback lookup never runs.  This contradicts the claim (and the
code's own comment "Cache based on what actually happened, not what was
requested"): the result should have gone under the non-reranked key. -/
theorem c3_rerank_cache_key_bug :
    recommend c3settings c3req c3ext c3w0
      = .ok ({ source_product_id := "p1",
               items := [{ product_id := "a", score := 1 }], count := 1 },
             { cache := [(c3keyT, [{ product_id := "a", score := 1 }])],
               products := [c3prod], lookups := 1 })
    ∧ c3keyT.rerank = true
    ∧ RecoProductsCacheRepo.get [(c3keyT, [{ product_id := "a", score := 1 }])] c3keyF = none
    ∧ c3keyT ≠ c3keyF :=
  ⟨by decide, by decide, by decide, by decide⟩

-- ===========================================================================
-- C7: graceful degradation of recommend
-- ===========================================================================

theorem recommend_finish_ok (settings : PSettings) (req : Req) (w : World)
    (items : List RecoItem) (la : Bool) :
    ∃ pr, recommend_finish settings req w items la = .ok pr := ⟨_, rfl⟩

theorem recommend_rerank_ok (settings : PSettings) (req : Req) (ext : PExt) (w : World)
    (items : List RecoItem) :
    ∃ pr, recommend_rerank settings req ext w items = .ok pr := by
  unfold recommend_rerank
  split
  · cases hr : rag_answer ext.rag req.kind req.include_rationale items with
    | ok items2 =>
      exact recommend_finish_ok settings req w items2 true
    | error e =>
      cases hg : RecoProductsCacheRepo.get w.cache (build_cache_key settings req false) with
      | none =>
        exact recommend_finish_ok settings req w items false
      | some l =>
        cases l with
        | nil => exact recommend_finish_ok settings req w items false
        | cons c cs => exact ⟨_, rfl⟩
  · exact recommend_finish_ok settings req w items false

def c7settings : PSettings := {}

def c7prod : Product := { product_id := "p1", name := "P one" }

def c7ext : PExt := { embed := .ok none, agg := fun _ => .ok [], rag := ragEnvAlwaysFail }

def c7w0 : World := { cache := [], products := [c7prod] }

def c7reqXsell : Req := { kind := KIND_XSELL, version := "v1", product_id := "p1" }

/-- C7 (counterexample): "xsell" is a supported kind (`ALL_KINDS`), the
request is well-formed and the source product exists, yet `recommend`
propagates the `ValueError` raised by `_text_fallback` ("kind must be known
to avoid silent misrouting") instead of degrading gracefully. -/
theorem c7_counterexample :
    c7reqXsell.kind ∈ ALL_KINDS
    ∧ recommend c7settings c7reqXsell c7ext c7w0
        = .error "Unknown kind for text fallback: xsell" :=
  ⟨by decide, by decide⟩

/-- C7 (amended): `recommend` never propagates an exception for the kinds
that have a text-fallback builder (sim and comp) — a missing source entity
yields the empty result (and its negative-cache write), and a raised
embedding failure is equivalent to proceeding with `vec = none`; for the
other supported kinds with `use_text_fallback` enabled, `_text_fallback`'s
`ValueError` propagates (see the counterexample). -/
theorem c7_amended :
    (∀ (settings : PSettings) (req : Req) (ext : PExt) (w : World),
       (req.kind = KIND_SIMILAR ∨ req.kind = KIND_COMPLEMENTARY) →
       (recommend settings req ext w).isOk = true)
    ∧ (∀ (settings : PSettings) (req : Req) (ext : PExt) (w : World),
       RecoProductsCacheRepo.get w.cache (build_cache_key settings req req.use_llm) = none →
       w.products.find? (fun p => p.product_id == req.product_id) = none →
       recommend settings req ext w
         = .ok ({ source_product_id := req.product_id, items := [], count := 0 },
                { cache := RecoProductsCacheRepo.set w.cache
                    (build_cache_key settings req req.use_llm) [],
                  products := w.products, lookups := w.lookups + 1 }))
    ∧ (∀ (settings : PSettings) (req : Req) (agg : List Stage → Outcome (List SearchDoc))
         (rag : RagEnv) (m : String) (w : World),
       recommend settings req { embed := .err m, agg := agg, rag := rag } w
         = recommend settings req { embed := .ok none, agg := agg, rag := rag } w) := by
  refine ⟨?_, ?_, ?_⟩
  · intro settings req ext w hk
    simp only [recommend]
    split
    · rfl
    · split
      · rfl
      · rename_i src hsrc
        have htxt : ∃ txt, (if req.use_text_fallback then _text_fallback req.kind src
            else .ok "") = Except.ok txt := by
          cases req.use_text_fallback
          · exact ⟨"", rfl⟩
          · rcases hk with hk | hk <;>
            · rw [hk]
              simp +decide [_text_fallback, KIND_SIMILAR, KIND_COMPLEMENTARY]
        obtain ⟨txt, hx⟩ := htxt
        rw [hx]
        have hall : ∀ (w' : World) (items : List RecoItem),
            (recommend_rerank settings req ext w' items).isOk = true := by
          intro w' items
          obtain ⟨pr, hpr⟩ := recommend_rerank_ok settings req ext w' items
          rw [hpr]
          rfl
        exact hall _ _
  · intro settings req ext w hc hfind
    simp only [recommend]
    rw [hc, hfind]
  · intro settings req agg rag m w
    rfl

def c7reqSim : Req := { kind := KIND_SIMILAR, version := "v1", product_id := "p1" }

/-- C7 (witness): the amended totality statement applied to a concrete
sim-kind request (with an embedding failure injected). -/
theorem c7_witness :
    (c7reqSim.kind = KIND_SIMILAR ∨ c7reqSim.kind = KIND_COMPLEMENTARY)
    ∧ (recommend c7settings c7reqSim
        { embed := .err "rate limited", agg := fun _ => .ok [], rag := ragEnvAlwaysFail }
        c7w0).isOk = true :=
  ⟨Or.inl rfl,
   c7_amended.1 c7settings c7reqSim
     { embed := .err "rate limited", agg := fun _ => .ok [], rag := ragEnvAlwaysFail }
     c7w0 (Or.inl rfl)⟩

-- ===========================================================================
-- C9 support: sortedness invariants of recommend
-- ===========================================================================

theorem rag_answer_hydrate_err_eq (env : RagEnv) (kind : String) (incl : Bool)
    (candidates : List RecoItem) (e : String)
    (hc : candidates.isEmpty = false) (hh : env.hydrate = .err e) :
    rag_answer env kind incl candidates = .error e := by
  unfold rag_answer
  rw [hc, hh]
  rfl

theorem rag_answer_task_err_eq (env : RagEnv) (kind : String) (incl : Bool)
    (candidates : List RecoItem) (foundIds : List String) (e : String)
    (hc : candidates.isEmpty = false) (hh : env.hydrate = .ok foundIds)
    (hu : user_task kind incl = .error e) :
    rag_answer env kind incl candidates = .error e := by
  unfold rag_answer
  rw [hc, hh, hu]
  rfl

theorem rag_answer_prompt_err_eq (env : RagEnv) (kind : String) (incl : Bool)
    (candidates : List RecoItem) (foundIds : List String) (task e : String)
    (hc : candidates.isEmpty = false) (hh : env.hydrate = .ok foundIds)
    (hu : user_task kind incl = .ok task) (hs : system_prompt kind = .error e) :
    rag_answer env kind incl candidates = .error e := by
  unfold rag_answer
  rw [hc, hh, hu, hs]
  rfl

/-- Every successful `rag_answer` output is either the unchanged input
candidates (empty input or fail-open) or a successful `rag_success`. -/
theorem rag_answer_cases (env : RagEnv) (kind : String) (incl : Bool)
    (candidates out : List RecoItem)
    (h : rag_answer env kind incl candidates = .ok out) :
    out = candidates
    ∨ ∃ foundIds ranked, rag_success kind incl candidates foundIds ranked = .ok out := by
  by_cases he : candidates.isEmpty
  · rw [rag_answer_empty_eq env kind incl candidates he] at h
    exact Or.inl (Except.ok.inj h).symm
  · have he' := Bool.eq_false_iff.mpr he
    cases hh : env.hydrate with
    | err e =>
      rw [rag_answer_hydrate_err_eq env kind incl candidates e he' hh] at h
      cases h
    | ok foundIds =>
      cases hu : user_task kind incl with
      | error e =>
        rw [rag_answer_task_err_eq env kind incl candidates foundIds e he' hh hu] at h
        cases h
      | ok task =>
        cases hs : system_prompt kind with
        | error e =>
          rw [rag_answer_prompt_err_eq env kind incl candidates foundIds task e he' hh hu hs] at h
          cases h
        | ok sys =>
          cases hr : (_rerank_with_schema_retry env.llm env.parse env.schema
              [⟨"system", sys⟩, ⟨"user", env.user_json⟩]).2 with
          | error e =>
            rw [rag_answer_failopen_eq env kind incl candidates foundIds task sys e hh hu hs hr] at h
            exact Or.inl (Except.ok.inj h).symm
          | ok ranked =>
            rw [rag_answer_success_eq env kind incl candidates foundIds task sys ranked
                 he' hh hu hs hr] at h
            exact Or.inr ⟨foundIds, ranked, h⟩

theorem rag_success_sorted (kind : String) (incl : Bool) (candidates : List RecoItem)
    (foundIds : List String) (ranked : List RankItem) (out : List RecoItem)
    (h : rag_success kind incl candidates foundIds ranked = .ok out) :
    SortedScores out := by
  have hfil : (rag_filtered kind candidates foundIds ranked).Pairwise
      (fun a b => b.2.1 ≤ a.2.1) := by
    unfold rag_filtered
    exact (sortDescBy_pairwise (fun t => t.2.1) (rag_blended candidates foundIds ranked)).filter _
  unfold rag_success at h
  revert h
  split
  · intro h
    cases h
    cases incl <;>
    · simp only [Bool.false_eq_true, reduceIte]
      unfold SortedScores
      rw [List.pairwise_map]
      exact hfil
  · intro h
    cases h

theorem rag_answer_sorted (env : RagEnv) (kind : String) (incl : Bool)
    (candidates out : List RecoItem) (hsorted : SortedScores candidates)
    (h : rag_answer env kind incl candidates = .ok out) :
    SortedScores out := by
  rcases rag_answer_cases env kind incl candidates out h with rfl | ⟨foundIds, ranked, hs⟩
  · exact hsorted
  · exact rag_success_sorted kind incl candidates foundIds ranked out hs

theorem recoItemsOfDocs_sorted {raw : List SearchDoc} (h : SortedDocs raw) :
    SortedScores (recoItemsOfDocs raw) := by
  unfold recoItemsOfDocs SortedScores
  rw [List.pairwise_map]
  exact h

theorem docsPhase_sorted (o : Outcome (List SearchDoc))
    (ho : ∀ docs, o = .ok docs → SortedDocs docs) :
    SortedScores (docsPhase o) := by
  unfold docsPhase
  cases o with
  | err m => exact List.Pairwise.nil
  | ok raw =>
    show SortedScores (if (raw.all fun d => decide (0 ≤ d.score)) = true
        then recoItemsOfDocs raw else [])
    by_cases hall : (raw.all fun d => decide (0 ≤ d.score)) = true
    · rw [if_pos hall]
      exact recoItemsOfDocs_sorted (ho raw rfl)
    · rw [if_neg hall]
      exact List.Pairwise.nil

theorem retrieve_vector_phase_sorted (agg : List Stage → Outcome (List SearchDoc))
    (vec : Option (List ℚ)) (mf : Option (List FilterClause)) (k : Nat) (kind : String)
    (hagg : AggSorted agg) :
    SortedScores (retrieve_vector_phase agg vec mf k kind) := by
  unfold retrieve_vector_phase
  cases vec with
  | none => exact List.Pairwise.nil
  | some v =>
    cases v with
    | nil => exact List.Pairwise.nil
    | cons v0 vs => exact docsPhase_sorted _ (fun docs hd => hagg _ docs hd)

theorem retrieve_text_phase_sorted (agg : List Stage → Outcome (List SearchDoc))
    (tq : String) (mf : Option (List FilterClause)) (k : Nat)
    (hagg : AggSorted agg) :
    SortedScores (retrieve_text_phase agg tq mf k) := by
  unfold retrieve_text_phase
  exact docsPhase_sorted _ (fun docs hd => hagg _ docs hd)

theorem retrieve_sorted (agg : List Stage → Outcome (List SearchDoc))
    (vec : Option (List ℚ)) (tq : String) (mf : Option (List FilterClause))
    (k : Nat) (kind : String) (hagg : AggSorted agg) :
    SortedScores (retrieve_candidates agg vec tq mf k kind) := by
  unfold retrieve_candidates
  split
  · exact retrieve_text_phase_sorted agg tq mf k hagg
  · exact retrieve_vector_phase_sorted agg vec mf k kind hagg

theorem cacheGet_sorted {cache : List (RecoCacheKey × List RecoItem)} {k : RecoCacheKey}
    {l : List RecoItem} (hc : CacheSorted cache)
    (h : RecoProductsCacheRepo.get cache k = some l) : SortedScores l := by
  unfold RecoProductsCacheRepo.get at h
  cases hf : cache.find? (fun p => p.1 == k) with
  | none => rw [hf] at h; cases h
  | some p =>
    rw [hf] at h
    cases h
    exact hc p (List.mem_of_find?_eq_some hf)

theorem cacheSet_sorted {cache : List (RecoCacheKey × List RecoItem)} {k : RecoCacheKey}
    {items : List RecoItem} (hc : CacheSorted cache) (hi : SortedScores items) :
    CacheSorted (RecoProductsCacheRepo.set cache k items) := by
  intro p hp
  rcases List.mem_cons.mp hp with rfl | hp
  · exact hi
  · exact hc p hp

theorem recommend_finish_inv (settings : PSettings) (req : Req) (w : World)
    (items : List RecoItem) (la : Bool) (res : RecoResult) (w' : World)
    (hcache : CacheSorted w.cache) (hitems : SortedScores items)
    (h : recommend_finish settings req w items la = .ok (res, w')) :
    res.count = res.items.length ∧ SortedScores res.items ∧ CacheSorted w'.cache := by
  unfold recommend_finish at h
  cases h
  have htake : SortedScores (items.take FINAL_K) := List.Pairwise.take hitems
  refine ⟨rfl, htake, ?_⟩
  by_cases hb : req.use_llm && !la
  · rw [if_pos hb]
    exact cacheSet_sorted (cacheSet_sorted hcache htake) htake
  · rw [if_neg hb]
    exact cacheSet_sorted hcache htake

theorem recommend_rerank_inv (settings : PSettings) (req : Req) (ext : PExt) (w : World)
    (items : List RecoItem) (res : RecoResult) (w' : World)
    (hcache : CacheSorted w.cache) (hitems : SortedScores items)
    (h : recommend_rerank settings req ext w items = .ok (res, w')) :
    res.count = res.items.length ∧ SortedScores res.items ∧ CacheSorted w'.cache := by
  unfold recommend_rerank at h
  revert h
  split
  · intro h
    revert h
    cases hr : rag_answer ext.rag req.kind req.include_rationale items with
    | ok items2 =>
      intro h
      exact recommend_finish_inv settings req w items2 true res w' hcache
        (rag_answer_sorted ext.rag req.kind req.include_rationale items items2 hitems hr) h
    | error e =>
      cases hg : RecoProductsCacheRepo.get w.cache (build_cache_key settings req false) with
      | none =>
        intro h
        exact recommend_finish_inv settings req w items false res w' hcache hitems h
      | some l =>
        cases l with
        | nil =>
          intro h
          exact recommend_finish_inv settings req w items false res w' hcache hitems h
        | cons c cs =>
          intro h
          cases h
          exact ⟨rfl, cacheGet_sorted hcache hg, hcache⟩
  · intro h
    exact recommend_finish_inv settings req w items false res w' hcache hitems h

-- ===========================================================================
-- C9 support: sortedness invariants of the cross-sell service
-- ===========================================================================

theorem mined_pairwise (events : List Event) (pid : String) (uid : Option String)
    (prelimit : Nat) :
    (_mine_xsell_candidates events pid uid prelimit).Pairwise
      (fun a b => b.count ≤ a.count) := by
  unfold _mine_xsell_candidates
  apply List.Pairwise.take
  refine (sortDescBy_pairwise (fun d : CoDoc => (d.count : ℚ)) _).imp ?_
  exact fun hab => Nat.cast_le.mp hab

theorem xsellStep2b_pairwise {R : CoDoc → CoDoc → Prop} {mined : List CoDoc}
    (events : List Event) (product_id : String) (user_id : Option String) (ep ec : Bool)
    (h : mined.Pairwise R) :
    (xsellStep2b events product_id user_id ep ec mined).Pairwise R := by
  unfold xsellStep2b
  cases user_id with
  | none => exact h
  | some uid =>
    by_cases hb : (ep || ec) = true
    · show List.Pairwise R (if (ep || ec) = true then _ else mined)
      rw [if_pos hb]
      exact h.filter _
    · show List.Pairwise R (if (ep || ec) = true then _ else mined)
      rw [if_neg hb]
      exact h

theorem xsellStep2c_pairwise {R : CoDoc → CoDoc → Prop} {mined : List CoDoc}
    (products : List ProductDoc) (brand category_id : Option String)
    (h : mined.Pairwise R) :
    (xsellStep2c products brand category_id mined).Pairwise R := by
  unfold xsellStep2c
  by_cases hb : ((optTruthy brand).isSome || (optTruthy category_id).isSome) = true
  · rw [if_pos hb]
    exact h.filter _
  · rw [if_neg hb]
    exact h

theorem xEmptyReturn_inv (w : XWorld) (redisOk : Bool) (k : XKey) (pid : String)
    (hc : XCacheOk w.cache) :
    (xEmptyReturn w redisOk k pid).1.count = (xEmptyReturn w redisOk k pid).1.items.length
    ∧ SortedScores (xEmptyReturn w redisOk k pid).1.items
    ∧ XCacheOk (xEmptyReturn w redisOk k pid).2.cache := by
  refine ⟨rfl, List.Pairwise.nil, ?_⟩
  show XCacheOk (xSet w redisOk k _).cache
  unfold xSet
  by_cases hr : redisOk = true
  · rw [if_pos hr]
    intro p hp
    rcases List.mem_cons.mp hp with rfl | hp
    · exact ⟨List.Pairwise.nil, rfl⟩
    · exact hc p hp
  · rw [if_neg hr]
    exact hc

theorem natCast_div_le_div {a b m : Nat} (hba : b ≤ a) :
    ((b : ℚ) / (m : ℚ)) ≤ ((a : ℚ) / (m : ℚ)) := by
  rcases Nat.eq_zero_or_pos m with rfl | hm
  · rw [Nat.cast_zero, div_zero, div_zero]
  · have hm' : (0 : ℚ) < m := by exact_mod_cast hm
    exact (div_le_div_iff_of_pos_right hm').mpr (by exact_mod_cast hba)

theorem xsellFinish_inv (w : XWorld) (ext : XExt) (cache_key : XKey)
    (product_id : String) (limit : Nat) (llm incl : Bool) (mined : List CoDoc)
    (hmined : mined.Pairwise (fun a b => b.count ≤ a.count))
    (hc : XCacheOk w.cache) :
    (xsellFinish w ext cache_key product_id limit llm incl mined).1.count
      = (xsellFinish w ext cache_key product_id limit llm incl mined).1.items.length
    ∧ SortedScores (xsellFinish w ext cache_key product_id limit llm incl mined).1.items
    ∧ XCacheOk (xsellFinish w ext cache_key product_id limit llm incl mined).2.cache := by
  have hcand : SortedScores (mined.filterMap (fun m =>
      if m.product_id ≠ product_id then
        some ({ product_id := m.product_id,
                score := (m.count : ℚ) / ((((mined.map (·.count)).max?).getD 1 : ℕ) : ℚ) }
              : RecoItem)
      else none)) := by
    unfold SortedScores
    rw [List.pairwise_filterMap]
    apply hmined.imp
    intro a b hab x hx y hy
    by_cases ha : a.product_id ≠ product_id
    · rw [if_pos ha] at hx
      by_cases hb : b.product_id ≠ product_id
      · rw [if_pos hb] at hy
        cases hx
        cases hy
        exact natCast_div_le_div hab
      · rw [if_neg hb] at hy
        cases hy
    · rw [if_neg ha] at hx
      cases hx
  have hitems : ∀ ranked : List RecoItem, SortedScores ranked →
      SortedScores ((ranked.take limit).map (fun r =>
        ({ product_id := r.product_id, score := r.score,
           rationale := if incl then r.rationale else none } : RecoItem))) := by
    intro ranked hs
    unfold SortedScores
    rw [List.pairwise_map]
    exact List.Pairwise.take hs
  simp only [xsellFinish]
  refine ⟨trivial, ?_, ?_⟩
  · apply hitems
    by_cases hl : llm = true
    · rw [if_pos hl]
      cases hr : rag_answer ext.rag KIND_XSELL incl _ with
      | ok r => exact rag_answer_sorted _ _ _ _ _ hcand hr
      | error e => exact hcand
    · rw [if_neg hl]
      exact hcand
  · show XCacheOk (xSet w ext.redisOk cache_key _).cache
    unfold xSet
    by_cases hr : ext.redisOk = true
    · rw [if_pos hr]
      intro p hp
      rcases List.mem_cons.mp hp with rfl | hp
      · refine ⟨?_, rfl⟩
        apply hitems
        by_cases hl : llm = true
        · rw [if_pos hl]
          cases hg : rag_answer ext.rag KIND_XSELL incl _ with
          | ok r => exact rag_answer_sorted _ _ _ _ _ hcand hg
          | error e => exact hcand
        · rw [if_neg hl]
          exact hcand
      · exact hc p hp
    · rw [if_neg hr]
      exact hc

theorem recommend_inv (settings : PSettings) (req : Req) (ext : PExt) (w : World)
    (res : RecoResult) (w' : World)
    (hcache : CacheSorted w.cache) (hagg : AggSorted ext.agg)
    (h : recommend settings req ext w = .ok (res, w')) :
    res.count = res.items.length ∧ SortedScores res.items ∧ CacheSorted w'.cache := by
  simp only [recommend] at h
  split at h
  · rename_i c cs heq
    cases h
    exact ⟨rfl, cacheGet_sorted hcache heq, hcache⟩
  · split at h
    · cases h
      exact ⟨rfl, List.Pairwise.nil, cacheSet_sorted hcache List.Pairwise.nil⟩
    · split at h
      · cases h
      · exact recommend_rerank_inv settings req ext
          { cache := w.cache, products := w.products, lookups := w.lookups + 1 } _ res w'
          hcache (retrieve_sorted ext.agg _ _ _ RETRIEVAL_K "sim" hagg) h

theorem get_xsell_inv (w : XWorld) (ext : XExt) (version product_id : String)
    (user_id : Option String) (limit : Nat) (llm incl : Bool)
    (brand category_id : Option String) (ep ec : Bool) (out : RecoResult) (w2 : XWorld)
    (hc : XCacheOk w.cache)
    (h : get_xsell_products_cached_for_product w ext version product_id user_id limit
          llm incl brand category_id ep ec = (out, w2)) :
    out.count = out.items.length ∧ SortedScores out.items ∧ XCacheOk w2.cache := by
  have hkey : ∀ k : XKey, xEmptyReturn w ext.redisOk k product_id = (out, w2) →
      out.count = out.items.length ∧ SortedScores out.items ∧ XCacheOk w2.cache := by
    intro k hk
    have := xEmptyReturn_inv w ext.redisOk k product_id hc
    rw [hk] at this
    exact this
  simp only [get_xsell_products_cached_for_product] at h
  split at h
  · rename_i result heq
    cases h
    by_cases hr : ext.redisOk = true
    · rw [if_pos hr] at heq
      cases hf : w.cache.find? (fun p => p.1 ==
          ({ v := version, pid := product_id, uid := user_id, limit := limit,
             llm := llm, r := incl, excl_p := ep, excl_c := ec,
             brand := brand, category_id := category_id } : XKey)) with
      | none => rw [hf] at heq; cases heq
      | some p =>
        rw [hf] at heq
        cases heq
        have hp := hc p (List.mem_of_find?_eq_some hf)
        exact ⟨hp.2, hp.1, hc⟩
    · rw [if_neg hr] at heq
      cases heq
  · split at h
    · exact hkey _ h
    · split at h
      · exact hkey _ h
      · split at h
        · exact hkey _ h
        · split at h
          · exact hkey _ h
          · have := xsellFinish_inv w ext
              ({ v := version, pid := product_id, uid := user_id, limit := limit,
                 llm := llm, r := incl, excl_p := ep, excl_c := ec,
                 brand := brand, category_id := category_id } : XKey) product_id limit llm incl
              (xsellStep2c w.products brand category_id
                (xsellStep2b w.events product_id user_id ep ec
                  (_mine_xsell_candidates w.events product_id user_id (max (limit * 4) limit))))
              (xsellStep2c_pairwise w.products brand category_id
                (xsellStep2b_pairwise w.events product_id user_id ep ec
                  (mined_pairwise w.events product_id user_id (max (limit * 4) limit))))
              hc
            rw [h] at this
            exact this

-- ===========================================================================
-- C9: count == len(items) and non-increasing score order, both entry points
-- ===========================================================================

def c9settings : PSettings := {}

def c9prod : Product := { product_id := "p1", name := "P one" }

def c9ext : PExt :=
  { embed := .ok none, agg := fun _ => .ok [{ product_id := "a", score := 1 }],
    rag := ragEnvAlwaysFail }

def c9w0 : World := { cache := [], products := [c9prod], lookups := 0 }

def c9req : Req := { kind := KIND_SIMILAR, version := "v1", product_id := "p1" }

def c9res : RecoResult :=
  { source_product_id := "p1", items := [{ product_id := "a", score := 1 }], count := 1 }

def c9w1 : World :=
  { cache := [(build_cache_key c9settings c9req true, [{ product_id := "a", score := 1 }])],
    products := [c9prod], lookups := 1 }

def c9xw : XWorld := {}

def c9xext : XExt := { redisOk := false, rag := ragEnvAlwaysFail }

def c9xres : RecoResult := { source_product_id := "p1", items := [], count := 0 }

/-- C9: for every recommendation result returned by any entry point
(`recommend` for sim/comp and the cross-sell variant
`get_xsell_products_cached_for_product`), `count` equals the length of the
`items` list and the items are ordered by non-increasing score — provided the
pre-existing cache contents are themselves well-formed (they are produced
only by these same entry points, which preserve the property, as the
conclusions also show) and the document store returns ranked results. -/
theorem c9_count_and_order :
    (∀ (settings : PSettings) (req : Req) (ext : PExt) (w : World)
       (res : RecoResult) (w' : World),
      CacheSorted w.cache → AggSorted ext.agg →
      recommend settings req ext w = .ok (res, w') →
      res.count = res.items.length ∧ SortedScores res.items ∧ CacheSorted w'.cache)
    ∧ (∀ (w : XWorld) (ext : XExt) (version product_id : String)
        (user_id : Option String) (limit : Nat) (llm incl : Bool)
        (brand category_id : Option String) (ep ec : Bool)
        (out : RecoResult) (w2 : XWorld),
      XCacheOk w.cache →
      get_xsell_products_cached_for_product w ext version product_id user_id limit
        llm incl brand category_id ep ec = (out, w2) →
      out.count = out.items.length ∧ SortedScores out.items ∧ XCacheOk w2.cache) := by
  constructor
  · intro settings req ext w res w' hcache hagg h
    exact recommend_inv settings req ext w res w' hcache hagg h
  · intro w ext version product_id user_id limit llm incl brand category_id ep ec out w2 hc h
    exact get_xsell_inv w ext version product_id user_id limit llm incl brand category_id
      ep ec out w2 hc h

/-- C9 witness: both entry points applied at concrete inputs — a `recommend`
run that retrieves one candidate and survives a failed rerank, and a
cross-sell run on an empty store — with every hypothesis discharged. -/
theorem c9_witness :
    (CacheSorted c9w0.cache ∧ AggSorted c9ext.agg ∧ XCacheOk c9xw.cache)
    ∧ (c9res.count = c9res.items.length ∧ SortedScores c9res.items ∧ CacheSorted c9w1.cache)
    ∧ (c9xres.count = c9xres.items.length ∧ SortedScores c9xres.items ∧ XCacheOk c9xw.cache) := by
  have hcs : CacheSorted c9w0.cache := by intro p hp; cases hp
  have hagg : AggSorted c9ext.agg := by
    intro p docs h
    cases h
    exact List.Pairwise.cons (fun y hy => absurd hy (List.not_mem_nil y)) List.Pairwise.nil
  have hxc : XCacheOk c9xw.cache := by intro p hp; cases hp
  refine ⟨⟨hcs, hagg, hxc⟩, ?_, ?_⟩
  · exact c9_count_and_order.1 c9settings c9req c9ext c9w0 c9res c9w1 hcs hagg (by decide)
  · exact c9_count_and_order.2 c9xw c9xext "v1" "p1" none 10 true false none none true true
      c9xres c9xw hxc (by decide)

-- ===========================================================================
-- C10 support: self- and history-exclusion of the cross-sell service
-- ===========================================================================

theorem mine_excludes (events : List Event) (pid : String) (uid : Option String)
    (prelimit : Nat) :
    ∀ d ∈ _mine_xsell_candidates events pid uid prelimit, d.product_id ≠ pid := by
  unfold _mine_xsell_candidates
  intro d hd
  have hd1 := mem_sortDescBy.mp (List.mem_of_mem_take hd)
  rcases List.mem_map.mp hd1 with ⟨c, hc, rfl⟩
  have hc1 := dedupFirst_subset _ c hc
  rcases List.mem_flatten.mp hc1 with ⟨l, hl, hcl⟩
  rcases List.mem_filterMap.mp hl with ⟨prods, _, hsome⟩
  by_cases hp : pid ∈ prods
  · rw [if_pos hp] at hsome
    cases hsome
    have := List.of_mem_filter hcl
    simpa using this
  · rw [if_neg hp] at hsome
    cases hsome

theorem xsellStep2b_subset (events : List Event) (product_id : String)
    (user_id : Option String) (ep ec : Bool) (mined : List CoDoc) :
    ∀ m ∈ xsellStep2b events product_id user_id ep ec mined, m ∈ mined := by
  intro m hm
  unfold xsellStep2b at hm
  split at hm
  · split at hm
    · exact List.mem_of_mem_filter hm
    · exact hm
  · exact hm

theorem xsellStep2c_subset (products : List ProductDoc) (brand category_id : Option String)
    (mined : List CoDoc) :
    ∀ m ∈ xsellStep2c products brand category_id mined, m ∈ mined := by
  unfold xsellStep2c
  intro m hm
  by_cases hb : ((optTruthy brand).isSome || (optTruthy category_id).isSome) = true
  · rw [if_pos hb] at hm
    exact List.mem_of_mem_filter hm
  · rw [if_neg hb] at hm
    exact hm

theorem xsellStep2b_excludes (events : List Event) (product_id uid : String)
    (mined : List CoDoc) :
    ∀ m ∈ xsellStep2b events product_id (some uid) true true mined,
      m.product_id ≠ product_id
      ∧ m.product_id ∉ _get_user_purchased_product_ids events uid
      ∧ m.product_id ∉ _get_user_cart_product_ids events uid := by
  intro m hm
  simp only [xsellStep2b, Bool.true_or, reduceIte] at hm
  have hf := List.of_mem_filter hm
  rw [Bool.and_eq_true, decide_eq_true_eq, decide_eq_true_eq] at hf
  rcases hf with ⟨hnotin, hne⟩
  rw [List.mem_append] at hnotin
  push_neg at hnotin
  exact ⟨hne, hnotin.1, hnotin.2⟩

theorem rag_blended_fst_mem (candidates : List RecoItem) (foundIds : List String)
    (ranked : List RankItem) :
    ∀ t ∈ rag_blended candidates foundIds ranked,
      t.1 ∈ candidates.map (fun c => c.product_id) := by
  unfold rag_blended
  intro t ht
  rcases List.mem_append.mp ht with ht | ht
  · rcases List.mem_map.mp ht with ⟨pid, hpid, rfl⟩
    exact hpid
  · rcases List.mem_map.mp ht with ⟨pid, hpid, rfl⟩
    exact List.mem_of_mem_filter hpid

theorem rag_success_mem (kind : String) (incl : Bool) (candidates : List RecoItem)
    (foundIds : List String) (ranked : List RankItem) (out : List RecoItem)
    (h : rag_success kind incl candidates foundIds ranked = .ok out) :
    ∀ r ∈ out, r.product_id ∈ candidates.map (fun c => c.product_id) := by
  unfold rag_success at h
  revert h
  split
  · intro h
    cases h
    intro r hr
    cases incl with
    | true =>
      simp only [reduceIte] at hr
      rcases List.mem_map.mp hr with ⟨t, ht, rfl⟩
      exact rag_blended_fst_mem candidates foundIds ranked t
        (mem_sortDescBy.mp (List.mem_of_mem_filter ht))
    | false =>
      simp only [Bool.false_eq_true, reduceIte] at hr
      rcases List.mem_map.mp hr with ⟨t, ht, rfl⟩
      exact rag_blended_fst_mem candidates foundIds ranked t
        (mem_sortDescBy.mp (List.mem_of_mem_filter ht))
  · intro h
    cases h

theorem rag_answer_mem (env : RagEnv) (kind : String) (incl : Bool)
    (candidates out : List RecoItem)
    (h : rag_answer env kind incl candidates = .ok out) :
    ∀ r ∈ out, r.product_id ∈ candidates.map (fun c => c.product_id) := by
  rcases rag_answer_cases env kind incl candidates out h with rfl | ⟨foundIds, ranked, hs⟩
  · exact fun r hr => List.mem_map.mpr ⟨r, hr, rfl⟩
  · exact rag_success_mem kind incl candidates foundIds ranked out hs

theorem candidates_ids_sub (product_id : String) (mined : List CoDoc) (mx : Nat) :
    ∀ q ∈ ((mined.filterMap (fun m =>
        if m.product_id ≠ product_id then
          some ({ product_id := m.product_id, score := (m.count : ℚ) / (mx : ℚ) } : RecoItem)
        else none)).map (fun c => c.product_id)),
      q ∈ mined.map (fun m => m.product_id) := by
  intro q hq
  rcases List.mem_map.mp hq with ⟨c, hc, rfl⟩
  rcases List.mem_filterMap.mp hc with ⟨m, hm, hsome⟩
  by_cases hne : m.product_id ≠ product_id
  · rw [if_pos hne] at hsome
    cases hsome
    exact List.mem_map.mpr ⟨m, hm, rfl⟩
  · rw [if_neg hne] at hsome
    cases hsome

theorem xsellFinish_items_mem (w : XWorld) (ext : XExt) (cache_key : XKey)
    (product_id : String) (limit : Nat) (llm incl : Bool) (mined : List CoDoc) :
    ∀ it ∈ (xsellFinish w ext cache_key product_id limit llm incl mined).1.items,
      it.product_id ∈ mined.map (fun m => m.product_id) := by
  simp only [xsellFinish]
  intro it hit
  rcases List.mem_map.mp hit with ⟨r, hr, rfl⟩
  have hr1 := List.mem_of_mem_take hr
  have hcand : ∀ s ∈ mined.filterMap (fun m =>
      if m.product_id ≠ product_id then
        some ({ product_id := m.product_id,
                score := (m.count : ℚ) / ((((mined.map (·.count)).max?).getD 1 : ℕ) : ℚ) }
              : RecoItem)
      else none), s.product_id ∈ mined.map (fun m => m.product_id) := by
    intro s hs
    exact candidates_ids_sub product_id mined _ s.product_id (List.mem_map.mpr ⟨s, hs, rfl⟩)
  show r.product_id ∈ _
  by_cases hl : llm = true
  · rw [if_pos hl] at hr1
    revert hr1
    cases hrag : rag_answer ext.rag KIND_XSELL incl (mined.filterMap (fun m =>
        if m.product_id ≠ product_id then
          some ({ product_id := m.product_id,
                  score := (m.count : ℚ) / ((((mined.map (·.count)).max?).getD 1 : ℕ) : ℚ) }
                : RecoItem)
        else none)) with
    | ok res =>
      intro hr1
      have := rag_answer_mem ext.rag KIND_XSELL incl _ res hrag r hr1
      rcases List.mem_map.mp this with ⟨s, hs, hid⟩
      rw [← hid]
      exact hcand s hs
    | error e =>
      intro hr1
      exact hcand r hr1
  · rw [if_neg hl] at hr1
    exact hcand r hr1

theorem xSet_pred (w : XWorld) (redisOk : Bool) (k : XKey) (res : RecoResult)
    (Q : XKey × RecoResult → Prop) (hc : ∀ p ∈ w.cache, Q p) (hres : Q (k, res)) :
    ∀ p ∈ (xSet w redisOk k res).cache, Q p := by
  unfold xSet
  by_cases hr : redisOk = true
  · rw [if_pos hr]
    intro p hp
    rcases List.mem_cons.mp hp with rfl | hp
    · exact hres
    · exact hc p hp
  · rw [if_neg hr]
    exact hc

theorem xEmptyReturn_pred (w : XWorld) (redisOk : Bool) (k : XKey) (pid : String)
    (P : RecoItem → Prop) (Q : XKey × RecoResult → Prop)
    (hc : ∀ p ∈ w.cache, Q p)
    (hq : Q (k, { source_product_id := pid, items := [], count := 0 })) :
    (∀ it ∈ (xEmptyReturn w redisOk k pid).1.items, P it)
    ∧ ∀ p ∈ (xEmptyReturn w redisOk k pid).2.cache, Q p := by
  constructor
  · intro it hit
    exact absurd hit (List.not_mem_nil it)
  · show ∀ p ∈ (xSet w redisOk k _).cache, Q p
    exact xSet_pred w redisOk k _ Q hc hq

theorem xsellFinish_cache_pred (w : XWorld) (ext : XExt) (cache_key : XKey)
    (product_id : String) (limit : Nat) (llm incl : Bool) (mined : List CoDoc)
    (Q : XKey × RecoResult → Prop) (hc : ∀ p ∈ w.cache, Q p)
    (hres : Q (cache_key, (xsellFinish w ext cache_key product_id limit llm incl mined).1)) :
    ∀ p ∈ (xsellFinish w ext cache_key product_id limit llm incl mined).2.cache, Q p := by
  show ∀ p ∈ (xSet w ext.redisOk cache_key _).cache, Q p
  exact xSet_pred w ext.redisOk cache_key _ Q hc hres

theorem get_xsell_self (w : XWorld) (ext : XExt) (version product_id : String)
    (user_id : Option String) (limit : Nat) (llm incl : Bool)
    (brand category_id : Option String) (ep ec : Bool) (out : RecoResult) (w2 : XWorld)
    (hcache : ∀ k res, (k, res) ∈ w.cache → k.pid = product_id →
      ∀ it ∈ res.items, it.product_id ≠ product_id)
    (h : get_xsell_products_cached_for_product w ext version product_id user_id limit
          llm incl brand category_id ep ec = (out, w2)) :
    (∀ it ∈ out.items, it.product_id ≠ product_id)
    ∧ ∀ k res, (k, res) ∈ w2.cache → k.pid = product_id →
      ∀ it ∈ res.items, it.product_id ≠ product_id := by
  have hcQ : ∀ p ∈ w.cache, (p.1.pid = product_id →
      ∀ it ∈ p.2.items, it.product_id ≠ product_id) :=
    fun p hp => hcache p.1 p.2 hp
  have hempty : ∀ k : XKey, xEmptyReturn w ext.redisOk k product_id = (out, w2) →
      (∀ it ∈ out.items, it.product_id ≠ product_id)
      ∧ ∀ k' res, (k', res) ∈ w2.cache → k'.pid = product_id →
        ∀ it ∈ res.items, it.product_id ≠ product_id := by
    intro k hk
    have := xEmptyReturn_pred w ext.redisOk k product_id
      (fun it => it.product_id ≠ product_id)
      (fun p => p.1.pid = product_id → ∀ it ∈ p.2.items, it.product_id ≠ product_id)
      hcQ (fun _ it hit => absurd hit (List.not_mem_nil it))
    rw [hk] at this
    exact ⟨this.1, fun k' res hm => this.2 (k', res) hm⟩
  simp only [get_xsell_products_cached_for_product] at h
  split at h
  · rename_i result heq
    cases h
    refine ⟨?_, fun k res hm => hcache k res hm⟩
    by_cases hr : ext.redisOk = true
    · rw [if_pos hr] at heq
      cases hf : w.cache.find? (fun p => p.1 ==
          ({ v := version, pid := product_id, uid := user_id, limit := limit,
             llm := llm, r := incl, excl_p := ep, excl_c := ec,
             brand := brand, category_id := category_id } : XKey)) with
      | none => rw [hf] at heq; cases heq
      | some p =>
        rw [hf] at heq
        cases heq
        have hkeq : p.1 =
            ({ v := version, pid := product_id, uid := user_id, limit := limit,
               llm := llm, r := incl, excl_p := ep, excl_c := ec,
               brand := brand, category_id := category_id } : XKey) := by
          have hpe := List.find?_some hf
          exact of_decide_eq_true hpe
        exact hcache p.1 p.2 (List.mem_of_find?_eq_some hf) (by rw [hkeq])
    · rw [if_neg hr] at heq
      cases heq
  · split at h
    · exact hempty _ h
    · split at h
      · exact hempty _ h
      · split at h
        · exact hempty _ h
        · split at h
          · exact hempty _ h
          · have hm3 : ∀ m ∈ (xsellStep2c w.products brand category_id
                (xsellStep2b w.events product_id user_id ep ec
                  (_mine_xsell_candidates w.events product_id user_id (max (limit * 4) limit)))),
                m.product_id ≠ product_id := by
              intro m hm
              exact mine_excludes w.events product_id user_id (max (limit * 4) limit) m
                (xsellStep2b_subset w.events product_id user_id ep ec _ m
                  (xsellStep2c_subset w.products brand category_id _ m hm))
            have hout : ∀ it ∈ (xsellFinish w ext
                ({ v := version, pid := product_id, uid := user_id, limit := limit,
                   llm := llm, r := incl, excl_p := ep, excl_c := ec,
                   brand := brand, category_id := category_id } : XKey) product_id limit llm incl
                (xsellStep2c w.products brand category_id
                  (xsellStep2b w.events product_id user_id ep ec
                    (_mine_xsell_candidates w.events product_id user_id
                      (max (limit * 4) limit))))).1.items,
                it.product_id ≠ product_id := by
              intro it hit
              rcases List.mem_map.mp (xsellFinish_items_mem w ext _ product_id limit llm incl
                _ it hit) with ⟨m, hm, hid⟩
              rw [← hid]
              exact hm3 m hm
            have hcomb := And.intro hout (xsellFinish_cache_pred w ext
              ({ v := version, pid := product_id, uid := user_id, limit := limit,
                 llm := llm, r := incl, excl_p := ep, excl_c := ec,
                 brand := brand, category_id := category_id } : XKey) product_id limit llm incl
              (xsellStep2c w.products brand category_id
                (xsellStep2b w.events product_id user_id ep ec
                  (_mine_xsell_candidates w.events product_id user_id (max (limit * 4) limit))))
              (fun p => p.1.pid = product_id → ∀ it ∈ p.2.items, it.product_id ≠ product_id)
              hcQ (fun _ => hout))
            rw [h] at hcomb
            exact ⟨hcomb.1, fun k res hm => hcomb.2 (k, res) hm⟩

theorem get_xsell_hist (w : XWorld) (ext : XExt) (version product_id uid : String)
    (limit : Nat) (llm incl : Bool) (brand category_id : Option String)
    (out : RecoResult) (w2 : XWorld)
    (hcache : ∀ k res, (k, res) ∈ w.cache → k.pid = product_id → k.uid = some uid →
      k.excl_p = true → k.excl_c = true → XsellExcluded w.events product_id uid res)
    (h : get_xsell_products_cached_for_product w ext version product_id (some uid) limit
          llm incl brand category_id true true = (out, w2)) :
    XsellExcluded w.events product_id uid out
    ∧ ∀ k res, (k, res) ∈ w2.cache → k.pid = product_id → k.uid = some uid →
      k.excl_p = true → k.excl_c = true → XsellExcluded w.events product_id uid res := by
  have hcQ : ∀ p ∈ w.cache, (p.1.pid = product_id → p.1.uid = some uid →
      p.1.excl_p = true → p.1.excl_c = true → XsellExcluded w.events product_id uid p.2) :=
    fun p hp => hcache p.1 p.2 hp
  have hempty : ∀ k : XKey, xEmptyReturn w ext.redisOk k product_id = (out, w2) →
      XsellExcluded w.events product_id uid out
      ∧ ∀ k' res, (k', res) ∈ w2.cache → k'.pid = product_id → k'.uid = some uid →
        k'.excl_p = true → k'.excl_c = true → XsellExcluded w.events product_id uid res := by
    intro k hk
    have := xEmptyReturn_pred w ext.redisOk k product_id
      (fun it => it.product_id ≠ product_id
        ∧ it.product_id ∉ _get_user_purchased_product_ids w.events uid
        ∧ it.product_id ∉ _get_user_cart_product_ids w.events uid)
      (fun p => p.1.pid = product_id → p.1.uid = some uid →
        p.1.excl_p = true → p.1.excl_c = true → XsellExcluded w.events product_id uid p.2)
      hcQ (fun _ _ _ _ it hit => absurd hit (List.not_mem_nil it))
    rw [hk] at this
    exact ⟨this.1, fun k' res hm => this.2 (k', res) hm⟩
  simp only [get_xsell_products_cached_for_product] at h
  split at h
  · rename_i result heq
    cases h
    refine ⟨?_, fun k res hm => hcache k res hm⟩
    by_cases hr : ext.redisOk = true
    · rw [if_pos hr] at heq
      cases hf : w.cache.find? (fun p => p.1 ==
          ({ v := version, pid := product_id, uid := some uid, limit := limit,
             llm := llm, r := incl, excl_p := true, excl_c := true,
             brand := brand, category_id := category_id } : XKey)) with
      | none => rw [hf] at heq; cases heq
      | some p =>
        rw [hf] at heq
        cases heq
        have hkeq : p.1 =
            ({ v := version, pid := product_id, uid := some uid, limit := limit,
               llm := llm, r := incl, excl_p := true, excl_c := true,
               brand := brand, category_id := category_id } : XKey) := by
          have hpe := List.find?_some hf
          exact of_decide_eq_true hpe
        exact hcache p.1 p.2 (List.mem_of_find?_eq_some hf)
          (by rw [hkeq]) (by rw [hkeq]) (by rw [hkeq]) (by rw [hkeq])
    · rw [if_neg hr] at heq
      cases heq
  · split at h
    · exact hempty _ h
    · split at h
      · exact hempty _ h
      · split at h
        · exact hempty _ h
        · split at h
          · exact hempty _ h
          · have hm3 : ∀ m ∈ (xsellStep2c w.products brand category_id
                (xsellStep2b w.events product_id (some uid) true true
                  (_mine_xsell_candidates w.events product_id (some uid)
                    (max (limit * 4) limit)))),
                m.product_id ≠ product_id
                ∧ m.product_id ∉ _get_user_purchased_product_ids w.events uid
                ∧ m.product_id ∉ _get_user_cart_product_ids w.events uid := by
              intro m hm
              exact xsellStep2b_excludes w.events product_id uid _ m
                (xsellStep2c_subset w.products brand category_id _ m hm)
            have hout : ∀ it ∈ (xsellFinish w ext
                ({ v := version, pid := product_id, uid := some uid, limit := limit,
                   llm := llm, r := incl, excl_p := true, excl_c := true,
                   brand := brand, category_id := category_id } : XKey) product_id limit llm incl
                (xsellStep2c w.products brand category_id
                  (xsellStep2b w.events product_id (some uid) true true
                    (_mine_xsell_candidates w.events product_id (some uid)
                      (max (limit * 4) limit))))).1.items,
                it.product_id ≠ product_id
                ∧ it.product_id ∉ _get_user_purchased_product_ids w.events uid
                ∧ it.product_id ∉ _get_user_cart_product_ids w.events uid := by
              intro it hit
              rcases List.mem_map.mp (xsellFinish_items_mem w ext _ product_id limit llm incl
                _ it hit) with ⟨m, hm, hid⟩
              rw [← hid]
              exact hm3 m hm
            have hcomb := And.intro hout (xsellFinish_cache_pred w ext
              ({ v := version, pid := product_id, uid := some uid, limit := limit,
                 llm := llm, r := incl, excl_p := true, excl_c := true,
                 brand := brand, category_id := category_id } : XKey) product_id limit llm incl
              (xsellStep2c w.products brand category_id
                (xsellStep2b w.events product_id (some uid) true true
                  (_mine_xsell_candidates w.events product_id (some uid)
                    (max (limit * 4) limit))))
              (fun p => p.1.pid = product_id → p.1.uid = some uid →
                p.1.excl_p = true → p.1.excl_c = true →
                XsellExcluded w.events product_id uid p.2)
              hcQ (fun _ _ _ _ => hout))
            rw [h] at hcomb
            exact ⟨hcomb.1, fun k res hm => hcomb.2 (k, res) hm⟩

def c10events : List Event :=
  [{ event_type := "purchase", user_id := some "u1", product_id := "p1", order_id := some "o1" },
   { event_type := "purchase", user_id := some "u1", product_id := "q1", order_id := some "o1" }]

def c10w : XWorld :=
  { cache := [], events := c10events,
    products := [{ product_id := "p1" }, { product_id := "q1" }] }

def c10ext : XExt := { redisOk := false, rag := ragEnvAlwaysFail }

/-- C10: cross-sell self- and history-exclusion.  (a) Under every flag/user
combination, the result of `get_xsell_products_cached_for_product` never
contains the source product id (removed in the mining aggregation and again
by the candidate filter), and every cache entry written under a key for this
product keeps that property; (b) when a user id is supplied with both
exclusion flags enabled, the result never contains a product id from that
user's purchase or add-to-cart history — in both parts assuming pre-existing
cache entries under matching keys (written only by this same entry point,
which the conclusions show preserves the property) already satisfy it. -/
theorem c10_exclusion :
    (∀ (w : XWorld) (ext : XExt) (version product_id : String)
       (user_id : Option String) (limit : Nat) (llm incl : Bool)
       (brand category_id : Option String) (ep ec : Bool)
       (out : RecoResult) (w2 : XWorld),
      (∀ k res, (k, res) ∈ w.cache → k.pid = product_id →
        ∀ it ∈ res.items, it.product_id ≠ product_id) →
      get_xsell_products_cached_for_product w ext version product_id user_id limit
        llm incl brand category_id ep ec = (out, w2) →
      (∀ it ∈ out.items, it.product_id ≠ product_id)
      ∧ ∀ k res, (k, res) ∈ w2.cache → k.pid = product_id →
        ∀ it ∈ res.items, it.product_id ≠ product_id)
    ∧ (∀ (w : XWorld) (ext : XExt) (version product_id uid : String) (limit : Nat)
        (llm incl : Bool) (brand category_id : Option String)
        (out : RecoResult) (w2 : XWorld),
      (∀ k res, (k, res) ∈ w.cache → k.pid = product_id → k.uid = some uid →
        k.excl_p = true → k.excl_c = true → XsellExcluded w.events product_id uid res) →
      get_xsell_products_cached_for_product w ext version product_id (some uid) limit
        llm incl brand category_id true true = (out, w2) →
      XsellExcluded w.events product_id uid out
      ∧ ∀ k res, (k, res) ∈ w2.cache → k.pid = product_id → k.uid = some uid →
        k.excl_p = true → k.excl_c = true → XsellExcluded w.events product_id uid res) := by
  constructor
  · intro w ext version product_id user_id limit llm incl brand category_id ep ec out w2 hc h
    exact get_xsell_self w ext version product_id user_id limit llm incl brand category_id
      ep ec out w2 hc h
  · intro w ext version product_id uid limit llm incl brand category_id out w2 hc h
    exact get_xsell_hist w ext version product_id uid limit llm incl brand category_id
      out w2 hc h

/-- C10 witness: a concrete store with one co-purchase order for user `u1`;
both the general self-exclusion part and the history-exclusion part applied
with every hypothesis discharged (the empty cache satisfies the cache
hypotheses vacuously; the run is evaluated by `decide`). -/
theorem c10_witness :
    (∀ it ∈ ({ source_product_id := "p1", items := [], count := 0 } : RecoResult).items,
      it.product_id ≠ "p1")
    ∧ XsellExcluded c10events "p1" "u1" { source_product_id := "p1", items := [], count := 0 } := by
  have hc1 : ∀ k res, (k, res) ∈ c10w.cache → k.pid = "p1" →
      ∀ it ∈ res.items, it.product_id ≠ "p1" := fun k res hm => absurd hm (by intro hx; cases hx)
  have hc2 : ∀ k res, (k, res) ∈ c10w.cache → k.pid = "p1" → k.uid = some "u1" →
      k.excl_p = true → k.excl_c = true → XsellExcluded c10w.events "p1" "u1" res :=
    fun k res hm => absurd hm (by intro hx; cases hx)
  refine ⟨?_, ?_⟩
  · exact (c10_exclusion.1 c10w c10ext "v1" "p1" (some "u1") 10 false false none none true true
      { source_product_id := "p1", items := [], count := 0 } c10w hc1 (by decide)).1
  · exact (c10_exclusion.2 c10w c10ext "v1" "p1" "u1" 10 false false none none
      { source_product_id := "p1", items := [], count := 0 } c10w hc2 (by decide)).1
